import Mathlib

/-!
Verification of the literature retrieval-and-normalization pipeline of the
NeuroScreen repository (src/services/geminiService.ts, src/App.tsx,
src/types.ts).

The TypeScript source is shallowly embedded: JS strings become Lean
`String`/`List Char`, JS numbers used by the comparator become exact
rationals (ℚ), the external network services (PubMed, Gemini) are modelled
as oracle parameters, and the `Date.now()/Math.random()` component of the
synthetic paper id is modelled as a supplied generator `Nat → String`.
JS regular expressions are translated into explicit deterministic scanning
functions implementing the leftmost-match / greedy / lazy semantics of the
concrete patterns that appear in the source.
-/

namespace NeuroScreen

/-! ## JS string primitives -/

/-- The JavaScript whitespace class `\s`:
tab, LF, VT, FF, CR, space, NBSP, U+1680, U+2000–U+200A, U+2028, U+2029,
U+202F, U+205F, U+3000, U+FEFF. -/
def isJsWs (c : Char) : Bool :=
  let n := c.toNat
  n == 9 || n == 10 || n == 11 || n == 12 || n == 13 || n == 32 ||
  n == 160 || n == 5760 || (8192 ≤ n && n ≤ 8202) || n == 8232 ||
  n == 8233 || n == 8239 || n == 8287 || n == 12288 || n == 65279

/-- JS line terminators (the characters NOT matched by `.`):
LF, CR, U+2028, U+2029. -/
def isLineTerm (c : Char) : Bool :=
  let n := c.toNat
  n == 10 || n == 13 || n == 8232 || n == 8233

/-- `String.prototype.trim` on a character list: strip JS whitespace from
both ends. -/
def jsTrimList (l : List Char) : List Char :=
  ((l.dropWhile isJsWs).reverse.dropWhile isJsWs).reverse

/-- `String.prototype.trim`. -/
def jsTrim (s : String) : String :=
  ⟨jsTrimList s.data⟩

/-- `String.prototype.toUpperCase`, restricted to ASCII letters (the only
case-carrying characters appearing in the embedded code paths). -/
def jsUpper (s : String) : String :=
  ⟨s.data.map Char.toUpper⟩

/-- Substring containment check, i.e. `String.prototype.includes` on
character lists. -/
def containsList (pat : List Char) : List Char → Bool
  | [] => pat.isEmpty
  | l@(_ :: rest) => pat.isPrefixOf l || containsList pat rest

/-- `a.includes(b)` for strings. -/
def jsIncludes (s pat : String) : Bool :=
  containsList pat.data s.data

/-- `String.prototype.toLowerCase`, restricted to ASCII letters. -/
def jsLower (s : String) : String :=
  ⟨s.data.map Char.toLower⟩

/-- `s.split('---')` on a character list: non-overlapping, left-to-right
splitting on the literal three-dash separator. -/
def splitDashes (l : List Char) : List (List Char) :=
  match l with
  | [] => [[]]
  | c :: rest =>
    if (['-', '-', '-'] : List Char).isPrefixOf (c :: rest) then
      [] :: splitDashes (rest.drop 2)
    else
      match splitDashes rest with
      | s :: ss => (c :: s) :: ss
      | [] => [[c]]
termination_by l.length
decreasing_by
  · simp only [List.length_cons, List.length_drop]
    omega
  · simp

/-! ## Data model (src/types.ts) -/

/-- `Paper` from src/types.ts: the `EnrichedPaper` of the spec.  The
optional fields `casQuartile` and `rawText` are always assigned by the
parser, so they are plain strings here. -/
structure Paper where
  id : String
  titleEn : String
  titleCn : String
  firstAuthor : String
  firstInstitution : String
  correspondingAuthor : String
  journal : String
  publishDate : String
  pmidDoi : String
  impactFactor : String
  casQuartile : String
  diseaseType : String
  researchType : String
  sampleSize : String
  clinicalQuestion : String
  keyConclusions : String
  abstract : String
  endpointsDetails : String
  url : String
  rawText : String
deriving DecidableEq, Repr

/-- `GroundingChunk` from src/types.ts (the `web` member's payload). -/
structure GroundingChunk where
  uri : String
  title : String
deriving DecidableEq, Repr

/-- `PubMedRawData` from src/services/geminiService.ts. -/
structure PubMedRawData where
  pmid : String
  title : String
  abstract : String
  journal : String
  pubDate : String
  doi : String
  authors : String
deriving DecidableEq, Repr

/-! ## Ranking helpers (geminiService.ts lines 184–213) -/

/-- Leftmost match of the JS regex `/(\d+(\.\d+)?)/` evaluated as an exact
rational: at the first position where a digit occurs, the maximal digit run
is taken, optionally followed by a dot and a further nonempty digit run. -/
def digitsToNat (l : List Char) : Nat :=
  l.foldl (fun a c => 10 * a + (c.toNat - 48)) 0

def firstNumToken : List Char → Option ℚ
  | [] => none
  | c :: rest =>
    if c.isDigit then
      let intRun := (c :: rest).takeWhile Char.isDigit
      let after := (c :: rest).dropWhile Char.isDigit
      match after with
      | '.' :: d :: ds =>
        if d.isDigit then
          let fracRun := (d :: ds).takeWhile Char.isDigit
          some ((digitsToNat intRun : ℚ) +
            (digitsToNat fracRun : ℚ) / ((10 : ℚ) ^ fracRun.length))
        else some (digitsToNat intRun : ℚ)
      | _ => some (digitsToNat intRun : ℚ)
    else firstNumToken rest

/-- `parseImpactFactor` (geminiService.ts lines 184–188).  The input is the
always-present `impactFactor` string field; the JS falsy check `!ifStr`
matches exactly the empty string there.  `parseFloat` of the matched token
is modelled as the exact rational value of the token. -/
def parseImpactFactor (ifStr : String) : ℚ :=
  if ifStr = "" ∨ ifStr = "N/A" ∨ ifStr = "Unknown" then -1
  else
    match firstNumToken ifStr.data with
    | some q => q
    | none => 0

/-- `getDiseaseRank` (geminiService.ts lines 191–204). -/
def getDiseaseRank (raw : String) : Nat :=
  let r := jsUpper (jsTrim raw)
  if jsIncludes r "AMYOTROPHIC" || jsIncludes r "ALS" then 1
  else if jsIncludes r "MOTOR NEURON" || jsIncludes r "MND" then 2
  else if jsIncludes r "ALZHEIMER" || r == "AD" then 3
  else if jsIncludes r "PARKINSON" || r == "PD" then 4
  else if jsIncludes r "FRONTOTEMPORAL" || r == "FTD" then 5
  else if jsIncludes r "GENERAL" || jsIncludes r "NEURODEGENERATIVE" ||
      jsIncludes r "ALL TYPES" then 6
  else if jsIncludes r "MULTIPLE SYSTEM" || r == "MSA" then 7
  else if jsIncludes r "HUNTINGTON" || r == "HD" then 8
  else if jsIncludes r "PROGRESSIVE SUPRA" || r == "PSP" then 9
  else if jsIncludes r "CORTICOBASAL" || r == "CBD" then 10
  else 99

/-- `getCategoryScore` (geminiService.ts lines 206–213). -/
def getCategoryScore (paper : Paper) : Nat :=
  let type := jsLower paper.researchType
  let url := jsLower paper.url
  if jsIncludes url "clinicaltrials.gov" || jsIncludes type "clinical trial" ||
      jsIncludes type "register" then 1
  else 0

/-- The sort comparator passed to `uniquePapers.sort` (geminiService.ts
lines 259–273), with the JS numeric result kept as an exact rational (the
sort consumes only its sign). -/
def comparePapers (a b : Paper) : ℚ :=
  let rankA := getDiseaseRank a.diseaseType
  let rankB := getDiseaseRank b.diseaseType
  if rankA ≠ rankB then (rankA : ℚ) - (rankB : ℚ)
  else
    let ifA := parseImpactFactor a.impactFactor
    let ifB := parseImpactFactor b.impactFactor
    if ifA > 0 ∧ ifB > 0 ∧ ifA ≠ ifB then ifB - ifA
    else if ifA > 0 ∧ ifB ≤ 0 then -1
    else if ifA ≤ 0 ∧ ifB > 0 then 1
    else (getCategoryScore a : ℚ) - (getCategoryScore b : ℚ)

/-- Stable insertion used to model `Array.prototype.sort` (stable per the
ECMAScript specification): an element is placed before the first element of
the already-sorted tail that does not strictly precede it. -/
def insertPaper (x : Paper) : List Paper → List Paper
  | [] => [x]
  | y :: ys => if comparePapers y x < 0 then y :: insertPaper x ys else x :: y :: ys

/-- Stable sort of the deduplicated list by `comparePapers`. -/
def sortPapers (l : List Paper) : List Paper :=
  l.foldr insertPaper []

/-! ## Deduplication (geminiService.ts lines 247–257) -/

/-- Leftmost match of `/(\d{6,})/`: at the first position where at least
six consecutive digits start, the maximal digit run. -/
def firstRun6 : List Char → Option (List Char)
  | [] => none
  | c :: rest =>
    let run := (c :: rest).takeWhile Char.isDigit
    if 6 ≤ run.length then some run else firstRun6 rest

/-- The dedup key: the 6+-digit numeric identifier from the PMID/DOI field
if present, else the lowercased, alphanumeric-only, 50-char-truncated
prefix of the English title. -/
def isLowerAlnum (c : Char) : Bool :=
  ('a' ≤ c && c ≤ 'z') || ('0' ≤ c && c ≤ '9')

def dedupKey (p : Paper) : String :=
  match firstRun6 p.pmidDoi.data with
  | some run => ⟨run⟩
  | none => ⟨((p.titleEn.data.map Char.toLower).filter isLowerAlnum).take 50⟩

/-- The dedup loop with its `seenKeys` set (modelled as a list). -/
def dedupGo (seen : List String) : List Paper → List Paper
  | [] => []
  | p :: rest =>
    if dedupKey p ∈ seen then dedupGo seen rest
    else p :: dedupGo (dedupKey p :: seen) rest

def dedupPapers (l : List Paper) : List Paper :=
  dedupGo [] l

/-! ## Record Fetcher date assembly (geminiService.ts line 128) -/

/-- The first replace of the pubDate assembly (regex: a dash anchored at the
end of the string, replaced by the empty string): remove one trailing dash. -/
def jsReplaceTrailingDash (l : List Char) : List Char :=
  match l.getLast? with
  | some '-' => l.dropLast
  | _ => l

/-- The second replace of the pubDate assembly (regex: a literal double
dash, replaced by the empty string): remove the first double dash. -/
def jsRemoveFirstDoubleDash : List Char → List Char
  | '-' :: '-' :: rest => rest
  | c :: rest => c :: jsRemoveFirstDoubleDash rest
  | [] => []

/-- The `pubDate` assembly of `fetchPubMedDetails` (line 128): the template
join of year, month and day with dash separators, then the
trailing-dash replace, then the double-dash replace, in that order. -/
def assemblePubDate (year month day : String) : String :=
  ⟨jsRemoveFirstDoubleDash (jsReplaceTrailingDash (year ++ "-" ++ month ++ "-" ++ day).data)⟩

/-! ## Markdown record parser (geminiService.ts lines 178–182, 215–245)

`extractField` uses the case-insensitive regex (in words): the literal
`**<key>**:`, then greedy whitespace, then a lazy any-character capture up
to a lookahead of newline-plus-two-asterisks, newline-plus-three-dashes, or
end of input.  Because the capture is unconstrained and the end-of-input
alternative always eventually holds, the leftmost key occurrence always
yields a match with a maximal whitespace run; the model below implements
exactly that resolved semantics. -/

/-- The lowered search pattern for a field label. -/
def keyPat (key : String) : List Char :=
  ("**" ++ key ++ "**:").data.map Char.toLower

/-- Find the leftmost case-insensitive occurrence of `pat` (pre-lowered)
and return the original characters after it. -/
def findKeyRem (pat : List Char) : List Char → Option (List Char)
  | [] => none
  | l@(_ :: rest) =>
    if pat.isPrefixOf (l.map Char.toLower) then some (l.drop pat.length)
    else findKeyRem pat rest

/-- The lazy capture: grow until the lookahead (newline then `**`, newline
then `---`, or end of input) holds. -/
def captureUntil : List Char → List Char
  | [] => []
  | l@(c :: rest) =>
    if ['\n', '*', '*'].isPrefixOf l || ['\n', '-', '-', '-'].isPrefixOf l then []
    else c :: captureUntil rest

/-- `extractField` (geminiService.ts lines 178–182). -/
def extractField (text key : String) : Option String :=
  match findKeyRem (keyPat key) text.data with
  | none => none
  | some rem => some ⟨jsTrimList (captureUntil (rem.dropWhile isJsWs))⟩

/-- The title regex (in words: three hashes, greedy whitespace, then a
nonempty greedy capture of non-line-terminator characters) applied to the
characters following one `###` occurrence.  When everything after the
hashes is whitespace, the greedy whitespace run backtracks to the last
non-line-terminator whitespace character, which becomes the capture; if
even that fails the occurrence does not match. -/
def tryTitle (after : List Char) : Option (List Char) :=
  if (after.dropWhile isJsWs).isEmpty then
    match (after.reverse.dropWhile isLineTerm).head? with
    | some c => some [c]
    | none => none
  else some ((after.dropWhile isJsWs).takeWhile (fun c => !isLineTerm c))

/-- Leftmost match of the title regex over a section's characters. -/
def findHeadingChars : List Char → Option (List Char)
  | [] => none
  | l@(_ :: rest) =>
    if ['#', '#', '#'].isPrefixOf l then
      match tryTitle (l.drop 3) with
      | some t => some t
      | none => findHeadingChars rest
    else findHeadingChars rest

/-- The section's heading capture (untrimmed), if any. -/
def findHeading (s : String) : Option String :=
  (findHeadingChars s.data).map (fun t => (⟨t⟩ : String))

/-- Split on the literal `---`, trim every segment, and drop empty ones
(geminiService.ts line 217). -/
def sectionsOf (text : String) : List String :=
  ((splitDashes text.data).map (fun l => (⟨jsTrimList l⟩ : String))).filter
    (fun s => decide (s ≠ ""))

/-- Build one `Paper` from a recognized section (geminiService.ts lines
222–243).  `freshId` models the `Date.now()/Math.random()` id component as
a supplied generator over the section index. -/
def mkPaperFromSection (freshId : Nat → String) (index : Nat)
    (sect title : String) : Paper :=
  { id := freshId index,
    titleEn := jsTrim title,
    titleCn := (extractField sect "中文标题").getD "暂无中文标题",
    firstAuthor := (extractField sect "第一作者").getD "Unknown",
    firstInstitution := (extractField sect "第一单位").getD "Unknown Institution",
    correspondingAuthor := (extractField sect "通讯作者").getD "Unknown",
    journal := (extractField sect "期刊").getD "Unknown Journal",
    publishDate := (extractField sect "发表日期").getD "Unknown Date",
    pmidDoi := (extractField sect "PMID/DOI").getD "N/A",
    impactFactor := (extractField sect "影响因子").getD "N/A",
    casQuartile := (extractField sect "中科院分区").getD "",
    diseaseType := (extractField sect "疾病类型").getD "General",
    researchType := (extractField sect "研究类型").getD "Literature",
    sampleSize := (extractField sect "样本量").getD "N/A",
    clinicalQuestion := (extractField sect "研究问题").getD "Not specified",
    keyConclusions := (extractField sect "结论要点").getD "No conclusion",
    abstract := (extractField sect "摘要").getD "暂无摘要",
    endpointsDetails := (extractField sect "临床终点详情").getD "N/A",
    url := (extractField sect "链接").getD "",
    rawText := sect }

/-- The `sections.forEach` loop: one candidate paper per section carrying a
heading, with the section index feeding the synthetic id. -/
def parseSections (freshId : Nat → String) : Nat → List String → List Paper
  | _, [] => []
  | i, sect :: rest =>
    match findHeading sect with
    | some t => mkPaperFromSection freshId i sect t :: parseSections freshId (i + 1) rest
    | none => parseSections freshId (i + 1) rest

/-- The `rawPapers` list of `parsePapersFromMarkdown`. -/
def rawPapersOf (freshId : Nat → String) (text : String) : List Paper :=
  parseSections freshId 0 (sectionsOf text)

/-- `parsePapersFromMarkdown` (geminiService.ts lines 215–274): parse,
deduplicate, sort. -/
def parsePapersFromMarkdown (freshId : Nat → String) (text : String) : List Paper :=
  sortPapers (dedupPapers (rawPapersOf freshId text))

/-! ## Enrichment batch processor (geminiService.ts lines 280–365)

The generative service is modelled as an oracle `svc` from the loop offset
`i` of a batch to either a response text with grounding chunks or a
failure.  The third component of the result counts issued batch requests
(one per loop iteration, successful or not). -/

/-- The inline error marker appended for a failed batch. -/
def errMarker (i len : Nat) : String :=
  "\n\n> Error processing papers " ++ toString (i + 1) ++ " to "
    ++ toString (i + len) ++ "\n\n---\n\n"

/-- One iteration of the batch loop. -/
def batchStep (svc : Nat → Except Unit (String × List GroundingChunk))
    (papers : List PubMedRawData)
    (acc : String × List GroundingChunk × Nat) (b : Nat) :
    String × List GroundingChunk × Nat :=
  let i := 10 * b
  let batch := (papers.drop i).take 10
  match svc i with
  | Except.ok (txt, cs) => (acc.1 ++ (txt ++ "\n\n---\n\n"), acc.2.1 ++ cs, acc.2.2 + 1)
  | Except.error _ => (acc.1 ++ errMarker i batch.length, acc.2.1, acc.2.2 + 1)

/-- `processPapersInBatches`: the loop `for (i = 0; i < n; i += 10)`. -/
def processPapersInBatches (svc : Nat → Except Unit (String × List GroundingChunk))
    (papers : List PubMedRawData) : String × List GroundingChunk × Nat :=
  (List.range ((papers.length + 9) / 10)).foldl (batchStep svc papers) ("", [], 0)

/-- The text block one batch contributes to the accumulated text. -/
def batchBlock (svc : Nat → Except Unit (String × List GroundingChunk))
    (papers : List PubMedRawData) (b : Nat) : String :=
  match svc (10 * b) with
  | Except.ok (txt, _) => txt ++ "\n\n---\n\n"
  | Except.error _ => errMarker (10 * b) ((papers.drop (10 * b)).take 10).length

/-- The grounding chunks one batch contributes. -/
def batchGC (svc : Nat → Except Unit (String × List GroundingChunk))
    (b : Nat) : List GroundingChunk :=
  match svc (10 * b) with
  | Except.ok (_, cs) => cs
  | Except.error _ => []

/-! ## Pipeline entry (geminiService.ts lines 367–410)

`fetchLiteratureUpdates` with the two external fetch stages replaced by
their oracle results: `pmids` stands for the identifier search result and
`rawData` for the detail fetch result.  The fourth component counts issued
enrichment batch requests. -/

def fetchLiteratureUpdates (freshId : Nat → String)
    (svc : Nat → Except Unit (String × List GroundingChunk))
    (pmids : List String) (rawData : List PubMedRawData) :
    List Paper × String × List GroundingChunk × Nat :=
  if pmids.length = 0 then
    ([], "No papers found in PubMed for this criteria.", [], 0)
  else if rawData.length = 0 then
    ([], "Found IDs but failed to fetch details from PubMed.", [], 0)
  else
    let r := processPapersInBatches svc rawData
    (parsePapersFromMarkdown freshId r.1, r.1, r.2.1, r.2.2)

/-- The call `fetchLiteratureUpdates(topic, timeframe, controller.signal)`
in App.tsx `handleSearch`: JavaScript drops extra arguments, so the abort
signal passed by the caller never reaches the function body. -/
def fetchLiteratureUpdatesWithSignal (aborted : Bool) (freshId : Nat → String)
    (svc : Nat → Except Unit (String × List GroundingChunk))
    (pmids : List String) (rawData : List PubMedRawData) :
    List Paper × String × List GroundingChunk × Nat :=
  fetchLiteratureUpdates freshId svc pmids rawData

/-! ## Spec-side definitions (used only to compare against the embedded code) -/

/-- Modelled from the spec (§4.6 deduplication): keep only the first record
observed per dedup key; later records with an already-seen key are dropped. -/
def specDedup : List Paper → List Paper
  | [] => []
  | p :: rest =>
    p :: specDedup (rest.filter (fun q => decide (dedupKey q ≠ dedupKey p)))
termination_by l => l.length
decreasing_by
  simp only [List.length_cons]
  exact Nat.lt_succ_of_le (List.length_filter_le _ _)

/-- The normalized disease text `(raw || "").trim().toUpperCase()` used by
`getDiseaseRank`. -/
def facetText (s : String) : String := jsUpper (jsTrim s)

/-- Modelled from the spec (C2): the disease-type text matches none of the
substring/equality patterns of the fixed rank table. -/
def matchesNoFacet (s : String) : Prop :=
  jsIncludes (facetText s) "AMYOTROPHIC" = false ∧
  jsIncludes (facetText s) "ALS" = false ∧
  jsIncludes (facetText s) "MOTOR NEURON" = false ∧
  jsIncludes (facetText s) "MND" = false ∧
  jsIncludes (facetText s) "ALZHEIMER" = false ∧ (facetText s == "AD") = false ∧
  jsIncludes (facetText s) "PARKINSON" = false ∧ (facetText s == "PD") = false ∧
  jsIncludes (facetText s) "FRONTOTEMPORAL" = false ∧
  (facetText s == "FTD") = false ∧
  jsIncludes (facetText s) "GENERAL" = false ∧
  jsIncludes (facetText s) "NEURODEGENERATIVE" = false ∧
  jsIncludes (facetText s) "ALL TYPES" = false ∧
  jsIncludes (facetText s) "MULTIPLE SYSTEM" = false ∧
  (facetText s == "MSA") = false ∧
  jsIncludes (facetText s) "HUNTINGTON" = false ∧ (facetText s == "HD") = false ∧
  jsIncludes (facetText s) "PROGRESSIVE SUPRA" = false ∧
  (facetText s == "PSP") = false ∧
  jsIncludes (facetText s) "CORTICOBASAL" = false ∧
  (facetText s == "CBD") = false

instance (s : String) : Decidable (matchesNoFacet s) := by
  unfold matchesNoFacet
  infer_instance

/-! ## Example papers for concrete test inputs -/

/-- A paper whose labelled fields all carry the parser's documented
defaults. -/
def basePaper : Paper :=
  { id := "paper-0", titleEn := "Title", titleCn := "暂无中文标题",
    firstAuthor := "Unknown", firstInstitution := "Unknown Institution",
    correspondingAuthor := "Unknown", journal := "Unknown Journal",
    publishDate := "Unknown Date", pmidDoi := "N/A", impactFactor := "N/A",
    casQuartile := "", diseaseType := "General", researchType := "Literature",
    sampleSize := "N/A", clinicalQuestion := "Not specified",
    keyConclusions := "No conclusion", abstract := "暂无摘要",
    endpointsDetails := "N/A", url := "", rawText := "" }

def paperPmidA : Paper :=
  { basePaper with pmidDoi := "PMID: 34567890, doi:10.1", titleEn := "First" }

def paperPmidB : Paper :=
  { basePaper with pmidDoi := "34567890", titleEn := "Second" }

def paperTitleA : Paper :=
  { basePaper with pmidDoi := "N/A", titleEn := "Hello, World" }

def paperTitleB : Paper :=
  { basePaper with pmidDoi := "doi:10.99/short", titleEn := "HELLO world!!" }

/-! ## Spec-side ranking order (C1) -/

/-- Three-valued comparison of one sort key under a linear order. -/
def keyOrd {α : Type} [LinearOrder α] (x y : α) : Ordering :=
  if x < y then Ordering.lt else if y < x then Ordering.gt else Ordering.eq

/-- Modelled from the spec (§4.6, key 2): descending numeric impact factor;
a record with no parsable positive value sorts after any record that has
one; two records with no parsable positive value tie. -/
def ifClassOrd (x y : ℚ) : Ordering :=
  if 0 < x then (if 0 < y then keyOrd y x else Ordering.lt)
  else if 0 < y then Ordering.gt else Ordering.eq

/-- Modelled from the spec (§4.6): the three-key comparator, first non-zero
key deciding — ascending disease-facet rank, then the impact-factor class,
then ascending category score. -/
def specRankOrd (a b : Paper) : Ordering :=
  (keyOrd (getDiseaseRank a.diseaseType) (getDiseaseRank b.diseaseType)).then
    ((ifClassOrd (parseImpactFactor a.impactFactor)
        (parseImpactFactor b.impactFactor)).then
      (keyOrd (getCategoryScore a) (getCategoryScore b)))

/-! ## Example papers for the ranking claims -/

def paperR3 : Paper := { basePaper with diseaseType := "AD" }
def paperR1 : Paper := { basePaper with diseaseType := "ALS" }
def paperR6 : Paper := { basePaper with diseaseType := "General" }

def paperIfHigh : Paper := { basePaper with diseaseType := "ALS", impactFactor := "12.1" }
def paperIfNA : Paper := { basePaper with diseaseType := "ALS", impactFactor := "N/A" }
def paperIfLow : Paper := { basePaper with diseaseType := "ALS", impactFactor := "5.0" }

/-- The documented textual defaults of the parser (C5): whenever a
labelled field is absent from a section, the corresponding `Paper` field
carries its default. -/
def fieldDefaults (p : Paper) (s : String) : Prop :=
  (extractField s "中文标题" = none → p.titleCn = "暂无中文标题") ∧
  (extractField s "第一作者" = none → p.firstAuthor = "Unknown") ∧
  (extractField s "第一单位" = none → p.firstInstitution = "Unknown Institution") ∧
  (extractField s "通讯作者" = none → p.correspondingAuthor = "Unknown") ∧
  (extractField s "期刊" = none → p.journal = "Unknown Journal") ∧
  (extractField s "发表日期" = none → p.publishDate = "Unknown Date") ∧
  (extractField s "PMID/DOI" = none → p.pmidDoi = "N/A") ∧
  (extractField s "影响因子" = none → p.impactFactor = "N/A") ∧
  (extractField s "中科院分区" = none → p.casQuartile = "") ∧
  (extractField s "疾病类型" = none → p.diseaseType = "General") ∧
  (extractField s "研究类型" = none → p.researchType = "Literature") ∧
  (extractField s "样本量" = none → p.sampleSize = "N/A") ∧
  (extractField s "研究问题" = none → p.clinicalQuestion = "Not specified") ∧
  (extractField s "结论要点" = none → p.keyConclusions = "No conclusion") ∧
  (extractField s "摘要" = none → p.abstract = "暂无摘要") ∧
  (extractField s "临床终点详情" = none → p.endpointsDetails = "N/A") ∧
  (extractField s "链接" = none → p.url = "")

/-! ## Infrastructure for the batch-accumulation claims -/

/-- Concatenation of a list of strings in order. -/
def strJoin : List String → String
  | [] => ""
  | s :: rest => s ++ strJoin rest

/-! ## The §6 enrichment grammar and its builder (C4)

`GrammarRecord` holds the seventeen fields of one grammar record;
`buildMarkdown` produces the exact Markdown text the grammar prescribes:
one `### <title>` heading, one `**<label>**: <value>` line per field in
grammar order, and a `---` delimiter line after each record.  `goodVal`
states the conformance conditions under which a string can stand as a
`<value>` (or `<title>`) of the grammar: nonempty, trimmed, single-line,
and not containing the `---` delimiter or a bold marker `**`. -/

structure GrammarRecord where
  titleEn : String
  titleCn : String
  firstAuthor : String
  firstInstitution : String
  correspondingAuthor : String
  journal : String
  publishDate : String
  pmidDoi : String
  impactFactor : String
  diseaseType : String
  researchType : String
  sampleSize : String
  url : String
  clinicalQuestion : String
  keyConclusions : String
  abstract : String
  endpointsDetails : String
deriving DecidableEq, Repr

/-- Grammar-conformance of a field value (or title). -/
def goodVal (v : String) : Prop :=
  v ≠ "" ∧ jsTrim v = v
  ∧ (∀ c ∈ v.data, isLineTerm c = false)
  ∧ containsList ['-', '-', '-'] v.data = false
  ∧ containsList ['*', '*'] (v.data.map Char.toLower) = false

instance (v : String) : Decidable (goodVal v) := by
  unfold goodVal
  infer_instance

/-- Grammar-conformance of a whole record. -/
def goodRecord (r : GrammarRecord) : Prop :=
  goodVal r.titleEn ∧ goodVal r.titleCn ∧ goodVal r.firstAuthor
  ∧ goodVal r.firstInstitution ∧ goodVal r.correspondingAuthor
  ∧ goodVal r.journal ∧ goodVal r.publishDate ∧ goodVal r.pmidDoi
  ∧ goodVal r.impactFactor ∧ goodVal r.diseaseType ∧ goodVal r.researchType
  ∧ goodVal r.sampleSize ∧ goodVal r.url ∧ goodVal r.clinicalQuestion
  ∧ goodVal r.keyConclusions ∧ goodVal r.abstract ∧ goodVal r.endpointsDetails

instance (r : GrammarRecord) : Decidable (goodRecord r) := by
  unfold goodRecord
  infer_instance

/-- The labelled (key, value) pairs of one record, in grammar order. -/
def fieldsOf (r : GrammarRecord) : List (String × String) :=
  [("中文标题", r.titleCn), ("第一作者", r.firstAuthor),
   ("第一单位", r.firstInstitution), ("通讯作者", r.correspondingAuthor),
   ("期刊", r.journal), ("发表日期", r.publishDate),
   ("PMID/DOI", r.pmidDoi), ("影响因子", r.impactFactor),
   ("疾病类型", r.diseaseType), ("研究类型", r.researchType),
   ("样本量", r.sampleSize), ("链接", r.url),
   ("研究问题", r.clinicalQuestion), ("结论要点", r.keyConclusions),
   ("摘要", r.abstract), ("临床终点详情", r.endpointsDetails)]

/-- The field lines of a record, each preceded by its newline. -/
def linesOf : List (String × String) → String
  | [] => ""
  | (k, v) :: rest => "\n**" ++ k ++ "**: " ++ v ++ linesOf rest

/-- One record's section text as the parser sees it after splitting and
trimming. -/
def sectString (r : GrammarRecord) : String :=
  "### " ++ r.titleEn ++ linesOf (fieldsOf r)

/-- One record's block in the generated Markdown, delimiter included. -/
def buildRecordBlock (r : GrammarRecord) : String :=
  sectString r ++ "\n---\n"

/-- The Markdown text of the §6 grammar for a list of records. -/
def buildMarkdown (rs : List GrammarRecord) : String :=
  strJoin (rs.map buildRecordBlock)

/-- The dedup key a record's built paper will carry. -/
def recDedupKey (r : GrammarRecord) : String :=
  match firstRun6 r.pmidDoi.data with
  | some run => ⟨run⟩
  | none => ⟨((r.titleEn.data.map Char.toLower).filter isLowerAlnum).take 50⟩

/-- Fieldwise agreement of a parsed paper with a grammar record on all
seventeen grammar fields. -/
def matchesRec (p : Paper) (r : GrammarRecord) : Prop :=
  p.titleEn = r.titleEn ∧ p.titleCn = r.titleCn ∧ p.firstAuthor = r.firstAuthor
  ∧ p.firstInstitution = r.firstInstitution
  ∧ p.correspondingAuthor = r.correspondingAuthor ∧ p.journal = r.journal
  ∧ p.publishDate = r.publishDate ∧ p.pmidDoi = r.pmidDoi
  ∧ p.impactFactor = r.impactFactor ∧ p.diseaseType = r.diseaseType
  ∧ p.researchType = r.researchType ∧ p.sampleSize = r.sampleSize
  ∧ p.url = r.url ∧ p.clinicalQuestion = r.clinicalQuestion
  ∧ p.keyConclusions = r.keyConclusions ∧ p.abstract = r.abstract
  ∧ p.endpointsDetails = r.endpointsDetails

/-- A label usable in the grammar: nonempty, starless (case-insensitively),
and not starting with a colon. -/
def keyOkP (k : String) : Prop :=
  k ≠ "" ∧ ('*' ∉ k.data.map Char.toLower)
  ∧ ((k.data.map Char.toLower).head? ≠ some ':')

/-- Case-insensitive prefix-independence of two labels: neither label is a
prefix of the other. -/
def keysIndep (q k : String) : Prop :=
  ((q.data.map Char.toLower).isPrefixOf (k.data.map Char.toLower)) = false
  ∧ ((k.data.map Char.toLower).isPrefixOf (q.data.map Char.toLower)) = false

instance (k : String) : Decidable (keyOkP k) := by
  unfold keyOkP
  infer_instance

instance (q k : String) : Decidable (keysIndep q k) := by
  unfold keysIndep
  infer_instance

/-- `small` occurs contiguously inside `big`. -/
def strContains (big small : String) : Prop :=
  ∃ u v : List Char, big.data = u ++ small.data ++ v

/-- A deterministic id generator standing in for the time/random synthetic
id component. -/
def idGen : Nat → String := fun i => "paper-" ++ toString i

/-- A concrete grammar-conformant record (C4 witness). -/
def rec4a : GrammarRecord :=
  ⟨"Study One", "研究一", "Li Wei", "Peking University", "Wang Fang", "Nature",
   "2024-01-15", "PMID: 38111222", "64.8", "ALS", "RCT", "120", "https://x.y/1",
   "Does X work", "X works", "A trial of X", "ALSFRS score"⟩

/-- A second concrete grammar-conformant record with a distinct PMID (C4
witness). -/
def rec4b : GrammarRecord :=
  ⟨"Study Two", "研究二", "Zhao Min", "Fudan University", "Chen Hua", "Lancet",
   "2024-03-02", "PMID: 39000111", "98.4", "FTD", "Cohort", "85", "https://x.y/2",
   "Does Y help", "Y helps", "A cohort of Y", "Survival time"⟩

/-- An enrichment oracle that fails every batch. -/
def svcFail : Nat → Except Unit (String × List GroundingChunk) :=
  fun _ => Except.error ()

/-- An enrichment oracle that answers every batch with an empty text. -/
def svcOkEmpty : Nat → Except Unit (String × List GroundingChunk) :=
  fun _ => Except.ok ("", [])

/-- An enrichment oracle whose first batch succeeds and whose later batches
fail. -/
def svcMix : Nat → Except Unit (String × List GroundingChunk) :=
  fun i => if i = 0 then Except.ok ("BATCH0TEXT", [⟨"https://g", "G"⟩]) else Except.error ()

/-- A raw PubMed record for concrete pipeline runs. -/
def dummyRaw : PubMedRawData :=
  { pmid := "12345678", title := "T", abstract := "A", journal := "J",
    pubDate := "2025", doi := "", authors := "Au" }

/-- Eleven raw records: two enrichment batches. -/
def papers11 : List PubMedRawData := List.replicate 11 dummyRaw

/-! ## Deduplication lemmas -/

theorem dedupGo_eq_spec (l : List Paper) :
    ∀ seen : List String,
      dedupGo seen l = specDedup (l.filter (fun p => decide (dedupKey p ∉ seen))) := by
  induction l with
  | nil => intro seen; simp [dedupGo, specDedup]
  | cons p rest ih =>
    intro seen
    by_cases h : dedupKey p ∈ seen
    · have hd : (decide (dedupKey p ∉ seen)) = false := by simp [h]
      simp only [dedupGo, if_pos h, List.filter_cons, hd, Bool.false_eq_true, if_false]
      exact ih seen
    · have hd : (decide (dedupKey p ∉ seen)) = true := by simp [h]
      simp only [dedupGo, if_neg h, List.filter_cons, hd, if_true]
      rw [ih (dedupKey p :: seen)]
      have hs : specDedup (p :: rest.filter (fun q => decide (dedupKey q ∉ seen)))
          = p :: specDedup ((rest.filter (fun q => decide (dedupKey q ∉ seen))).filter
              (fun q => decide (dedupKey q ≠ dedupKey p))) := by
        simp only [specDedup]
      rw [hs, List.filter_filter]
      congr 2
      apply List.filter_congr
      intro q _
      simp [List.mem_cons, not_or, and_comm]

theorem dedupPapers_eq_specDedup (l : List Paper) :
    dedupPapers l = specDedup l := by
  rw [dedupPapers, dedupGo_eq_spec]
  congr 1
  apply List.filter_eq_self.mpr
  intro q _
  simp

theorem natKeySign (m n : ℕ) :
    ((m : ℚ) - (n : ℚ) < 0 ↔ keyOrd m n = Ordering.lt)
    ∧ ((m : ℚ) - (n : ℚ) = 0 ↔ keyOrd m n = Ordering.eq)
    ∧ (0 < (m : ℚ) - (n : ℚ) ↔ keyOrd m n = Ordering.gt) := by
  rcases Nat.lt_trichotomy m n with h | h | h
  · have hq : (m : ℚ) < (n : ℚ) := by exact_mod_cast h
    have ho : keyOrd m n = Ordering.lt := by simp [keyOrd, h]
    rw [ho]
    refine ⟨iff_of_true (by linarith) rfl,
      iff_of_false ?_ (by decide), iff_of_false (by linarith) (by decide)⟩
    intro hh
    have := sub_eq_zero.mp hh
    linarith
  · subst h
    have ho : keyOrd m m = Ordering.eq := by simp [keyOrd]
    rw [ho]
    exact ⟨iff_of_false (by simp) (by decide), iff_of_true (by simp) rfl,
      iff_of_false (by simp) (by decide)⟩
  · have hq : (n : ℚ) < (m : ℚ) := by exact_mod_cast h
    have ho : keyOrd m n = Ordering.gt := by
      simp [keyOrd, h, Nat.lt_asymm h]
    rw [ho]
    refine ⟨iff_of_false (by linarith) (by decide),
      iff_of_false ?_ (by decide), iff_of_true (by linarith) rfl⟩
    intro hh
    have := sub_eq_zero.mp hh
    linarith

theorem ltThen (x : Ordering) : Ordering.lt.then x = Ordering.lt := rfl

theorem gtThen (x : Ordering) : Ordering.gt.then x = Ordering.gt := rfl

theorem eqThen (x : Ordering) : Ordering.eq.then x = x := rfl

theorem comparePapers_sign_spec (a b : Paper) :
    (comparePapers a b < 0 ↔ specRankOrd a b = Ordering.lt)
    ∧ (comparePapers a b = 0 ↔ specRankOrd a b = Ordering.eq)
    ∧ (0 < comparePapers a b ↔ specRankOrd a b = Ordering.gt) := by
  simp only [comparePapers, specRankOrd]
  set rA := getDiseaseRank a.diseaseType with hrA
  set rB := getDiseaseRank b.diseaseType with hrB
  set iA := parseImpactFactor a.impactFactor with hiA
  set iB := parseImpactFactor b.impactFactor with hiB
  set cA := getCategoryScore a with hcA
  set cB := getCategoryScore b with hcB
  rcases Nat.lt_trichotomy rA rB with h | h | h
  · rw [if_pos (Nat.ne_of_lt h)]
    have ho : keyOrd rA rB = Ordering.lt := by simp [keyOrd, h]
    rw [ho, ltThen]
    have hq : (rA : ℚ) - (rB : ℚ) < 0 := by
      have : (rA : ℚ) < (rB : ℚ) := by exact_mod_cast h
      linarith
    exact ⟨iff_of_true hq rfl, iff_of_false (ne_of_lt hq) (by decide),
      iff_of_false (by linarith) (by decide)⟩
  · rw [if_neg (by omega : ¬ rA ≠ rB)]
    have ho : keyOrd rA rB = Ordering.eq := by simp [keyOrd, h]
    rw [ho, eqThen]
    by_cases hA : 0 < iA
    · by_cases hB : 0 < iB
      · rcases lt_trichotomy iA iB with hi | hi | hi
        · rw [if_pos ⟨hA, hB, ne_of_lt hi⟩]
          have ho2 : ifClassOrd iA iB = Ordering.gt := by
            unfold ifClassOrd keyOrd
            rw [if_pos hA, if_pos hB, if_neg (lt_asymm hi), if_pos hi]
          rw [ho2, gtThen]
          exact ⟨iff_of_false (by linarith) (by decide),
            iff_of_false (by intro hh; have := sub_eq_zero.mp hh; linarith)
              (by decide),
            iff_of_true (by linarith) rfl⟩
        · rw [if_neg (fun hh => hh.2.2 hi), if_neg (fun hh => absurd hB (not_lt.mpr hh.2)),
            if_neg (fun hh => absurd hA (not_lt.mpr hh.1))]
          have ho2 : ifClassOrd iA iB = Ordering.eq := by
            unfold ifClassOrd keyOrd
            rw [if_pos hA, if_pos hB, if_neg (by simp [hi]), if_neg (by simp [hi])]
          rw [ho2, eqThen]
          exact natKeySign cA cB
        · rw [if_pos ⟨hA, hB, ne_of_gt hi⟩]
          have ho2 : ifClassOrd iA iB = Ordering.lt := by
            unfold ifClassOrd keyOrd
            rw [if_pos hA, if_pos hB, if_pos hi]
          rw [ho2, ltThen]
          exact ⟨iff_of_true (by linarith) rfl,
            iff_of_false (by intro hh; have := sub_eq_zero.mp hh; linarith)
              (by decide),
            iff_of_false (by linarith) (by decide)⟩
      · have hb : iB ≤ 0 := not_lt.mp hB
        rw [if_neg (by intro hh; exact hB hh.2.1), if_pos ⟨hA, hb⟩]
        have ho2 : ifClassOrd iA iB = Ordering.lt := by
          unfold ifClassOrd
          rw [if_pos hA, if_neg hB]
        rw [ho2, ltThen]
        exact ⟨iff_of_true (by norm_num) rfl, iff_of_false (by norm_num) (by decide),
          iff_of_false (by norm_num) (by decide)⟩
    · have ha : iA ≤ 0 := not_lt.mp hA
      by_cases hB : 0 < iB
      · rw [if_neg (by intro hh; exact hA hh.1), if_neg (by intro hh; exact hA hh.1),
          if_pos ⟨ha, hB⟩]
        have ho2 : ifClassOrd iA iB = Ordering.gt := by
          unfold ifClassOrd
          rw [if_neg hA, if_pos hB]
        rw [ho2, gtThen]
        exact ⟨iff_of_false (by norm_num) (by decide),
          iff_of_false (by norm_num) (by decide), iff_of_true (by norm_num) rfl⟩
      · rw [if_neg (by intro hh; exact hA hh.1), if_neg (by intro hh; exact hA hh.1),
          if_neg (by intro hh; exact hB hh.2)]
        have ho2 : ifClassOrd iA iB = Ordering.eq := by
          unfold ifClassOrd
          rw [if_neg hA, if_neg hB]
        rw [ho2, eqThen]
        exact natKeySign cA cB
  · rw [if_pos (Nat.ne_of_gt h)]
    have ho : keyOrd rA rB = Ordering.gt := by simp [keyOrd, h, Nat.lt_asymm h]
    rw [ho, gtThen]
    have hq : 0 < (rA : ℚ) - (rB : ℚ) := by
      have : (rB : ℚ) < (rA : ℚ) := by exact_mod_cast h
      linarith
    exact ⟨iff_of_false (by linarith) (by decide),
      iff_of_false (ne_of_gt hq) (by decide), iff_of_true hq rfl⟩

theorem insertPaper_front (x : Paper) (l : List Paper)
    (h : ∀ y ∈ l, ¬ comparePapers y x < 0) : insertPaper x l = x :: l := by
  cases l with
  | nil => rfl
  | cons y ys =>
    rw [insertPaper, if_neg (h y (List.mem_cons_self y ys))]

theorem sortPapers_all_ties (l : List Paper)
    (h : ∀ a ∈ l, ∀ b ∈ l, comparePapers a b = 0) : sortPapers l = l := by
  induction l with
  | nil => rfl
  | cons x xs ih =>
    have hxs : ∀ a ∈ xs, ∀ b ∈ xs, comparePapers a b = 0 := fun a ha b hb =>
      h a (List.mem_cons_of_mem _ ha) b (List.mem_cons_of_mem _ hb)
    have hstep : sortPapers (x :: xs) = insertPaper x (sortPapers xs) := rfl
    rw [hstep, ih hxs]
    apply insertPaper_front
    intro y hy
    rw [h y (List.mem_cons_of_mem _ hy) x (List.mem_cons_self _ _)]
    simp

/-! ## Evaluation lemmas for the comparator on concrete papers -/

theorem comparePapers_rank_ne {a b : Paper}
    (h : getDiseaseRank a.diseaseType ≠ getDiseaseRank b.diseaseType) :
    comparePapers a b
      = (getDiseaseRank a.diseaseType : ℚ) - (getDiseaseRank b.diseaseType : ℚ) := by
  simp only [comparePapers, if_pos h]

theorem comparePapers_both_pos {a b : Paper}
    (h : getDiseaseRank a.diseaseType = getDiseaseRank b.diseaseType)
    (hA : 0 < parseImpactFactor a.impactFactor)
    (hB : 0 < parseImpactFactor b.impactFactor)
    (hne : parseImpactFactor a.impactFactor ≠ parseImpactFactor b.impactFactor) :
    comparePapers a b
      = parseImpactFactor b.impactFactor - parseImpactFactor a.impactFactor := by
  have hcond : parseImpactFactor a.impactFactor > 0
      ∧ parseImpactFactor b.impactFactor > 0
      ∧ parseImpactFactor a.impactFactor ≠ parseImpactFactor b.impactFactor :=
    ⟨hA, hB, hne⟩
  simp only [comparePapers, if_neg (not_not_intro h), if_pos hcond]

theorem comparePapers_pos_nonpos {a b : Paper}
    (h : getDiseaseRank a.diseaseType = getDiseaseRank b.diseaseType)
    (hA : 0 < parseImpactFactor a.impactFactor)
    (hB : parseImpactFactor b.impactFactor ≤ 0) :
    comparePapers a b = -1 := by
  simp only [comparePapers, if_neg (not_not_intro h)]
  rw [if_neg (fun hh => absurd hh.2.1 (not_lt.mpr hB)), if_pos ⟨hA, hB⟩]

theorem comparePapers_self (a : Paper) : comparePapers a a = 0 := by
  simp only [comparePapers, if_neg (not_not_intro rfl)]
  rw [if_neg (fun hh => hh.2.2 rfl),
    if_neg (fun hh => absurd hh.1 (not_lt.mpr hh.2)),
    if_neg (fun hh => absurd hh.2 (not_lt.mpr hh.1)), sub_self]

theorem pif_NA : parseImpactFactor "N/A" = -1 := by
  rw [parseImpactFactor, if_pos (Or.inr (Or.inl rfl))]

theorem pif_121 : parseImpactFactor "12.1" = 121 / 10 := by
  rw [parseImpactFactor, if_neg (by decide)]
  have h : firstNumToken "12.1".data
      = some ((digitsToNat ['1', '2'] : ℚ)
        + (digitsToNat ['1'] : ℚ) / (10 : ℚ) ^ (['1'] : List Char).length) := rfl
  rw [h]
  have h1 : digitsToNat ['1', '2'] = 12 := by decide
  have h2 : digitsToNat ['1'] = 1 := by decide
  rw [h1, h2]
  norm_num

theorem pif_50 : parseImpactFactor "5.0" = 5 := by
  rw [parseImpactFactor, if_neg (by decide)]
  have h : firstNumToken "5.0".data
      = some ((digitsToNat ['5'] : ℚ)
        + (digitsToNat ['0'] : ℚ) / (10 : ℚ) ^ (['0'] : List Char).length) := rfl
  rw [h]
  have h1 : digitsToNat ['5'] = 5 := by decide
  have h2 : digitsToNat ['0'] = 0 := by decide
  rw [h1, h2]
  norm_num

theorem cmp_R6_R1_nonneg : ¬ comparePapers paperR6 paperR1 < 0 := by
  rw [comparePapers_rank_ne (by decide)]
  have h6 : getDiseaseRank paperR6.diseaseType = 6 := by decide
  have h1 : getDiseaseRank paperR1.diseaseType = 1 := by decide
  rw [h6, h1]
  norm_num

theorem cmp_R1_R3_neg : comparePapers paperR1 paperR3 < 0 := by
  rw [comparePapers_rank_ne (by decide)]
  have h1 : getDiseaseRank paperR1.diseaseType = 1 := by decide
  have h3 : getDiseaseRank paperR3.diseaseType = 3 := by decide
  rw [h1, h3]
  norm_num

theorem cmp_R6_R3_nonneg : ¬ comparePapers paperR6 paperR3 < 0 := by
  rw [comparePapers_rank_ne (by decide)]
  have h6 : getDiseaseRank paperR6.diseaseType = 6 := by decide
  have h3 : getDiseaseRank paperR3.diseaseType = 3 := by decide
  rw [h6, h3]
  norm_num

theorem pif_low_eval : parseImpactFactor paperIfLow.impactFactor = 5 := pif_50

theorem pif_high_eval : parseImpactFactor paperIfHigh.impactFactor = 121 / 10 := pif_121

theorem pif_na_eval : parseImpactFactor paperIfNA.impactFactor = -1 := pif_NA

theorem cmp_Low_NA_neg : comparePapers paperIfLow paperIfNA < 0 := by
  rw [comparePapers_pos_nonpos (by decide) (by rw [pif_low_eval]; norm_num)
    (by rw [pif_na_eval]; norm_num)]
  norm_num

theorem cmp_Low_High_nonneg : ¬ comparePapers paperIfLow paperIfHigh < 0 := by
  rw [comparePapers_both_pos (by decide) (by rw [pif_low_eval]; norm_num)
    (by rw [pif_high_eval]; norm_num)
    (by rw [pif_low_eval, pif_high_eval]; norm_num)]
  rw [pif_low_eval, pif_high_eval]
  norm_num

theorem sortExample_rank :
    sortPapers [paperR3, paperR1, paperR6] = [paperR1, paperR3, paperR6] := by
  show insertPaper paperR3 (insertPaper paperR1 (insertPaper paperR6 [])) = _
  rw [show insertPaper paperR6 [] = [paperR6] from rfl]
  rw [insertPaper, if_neg cmp_R6_R1_nonneg]
  rw [insertPaper, if_pos cmp_R1_R3_neg]
  rw [insertPaper, if_neg cmp_R6_R3_nonneg]

theorem sortExample_impact :
    sortPapers [paperIfHigh, paperIfNA, paperIfLow]
      = [paperIfHigh, paperIfLow, paperIfNA] := by
  show insertPaper paperIfHigh (insertPaper paperIfNA (insertPaper paperIfLow [])) = _
  rw [show insertPaper paperIfLow [] = [paperIfLow] from rfl]
  rw [insertPaper, if_pos cmp_Low_NA_neg]
  rw [show insertPaper paperIfNA [] = [paperIfNA] from rfl]
  rw [insertPaper, if_neg cmp_Low_High_nonneg]

/-! ## Claim C1 -/

/-- C1: the final ranking comparator is sign-equivalent to the three-key
lexicographic order of the spec (ascending disease-facet rank, then
descending parsed impact factor with non-positive values sorting last and
tying with each other, then ascending category score); there is no fourth
tie-break, so a list whose records all tie under the three keys is left in
parse order by the stable sort; and the two concrete examples of the claim
hold: disease ranks [3,1,6] sort to ranks 1,3,6, and equal-rank impact
factors [12.1, "N/A", 5.0] sort to 12.1, 5.0, "N/A". -/
theorem C1_ranking_comparator_three_keys :
    (∀ a b : Paper,
      (comparePapers a b < 0 ↔ specRankOrd a b = Ordering.lt)
      ∧ (comparePapers a b = 0 ↔ specRankOrd a b = Ordering.eq)
      ∧ (0 < comparePapers a b ↔ specRankOrd a b = Ordering.gt))
    ∧ (∀ l : List Paper,
        (∀ a ∈ l, ∀ b ∈ l, comparePapers a b = 0) → sortPapers l = l)
    ∧ sortPapers [paperR3, paperR1, paperR6] = [paperR1, paperR3, paperR6]
    ∧ sortPapers [paperIfHigh, paperIfNA, paperIfLow]
        = [paperIfHigh, paperIfLow, paperIfNA] :=
  ⟨comparePapers_sign_spec, sortPapers_all_ties, sortExample_rank, sortExample_impact⟩

theorem allTiesPair : ∀ a ∈ [paperR3, paperR3], ∀ b ∈ [paperR3, paperR3],
    comparePapers a b = 0 := by
  intro a ha b hb
  have ha' : a = paperR3 := by
    rcases List.mem_cons.mp ha with h | h
    · exact h
    · simpa using h
  have hb' : b = paperR3 := by
    rcases List.mem_cons.mp hb with h | h
    · exact h
    · simpa using h
  rw [ha', hb']
  exact comparePapers_self paperR3

/-- C1 witness: the stability conjunct applied to a concrete two-element
all-ties list. -/
theorem C1_witness :
    (∀ a ∈ [paperR3, paperR3], ∀ b ∈ [paperR3, paperR3], comparePapers a b = 0)
    ∧ sortPapers [paperR3, paperR3] = [paperR3, paperR3] :=
  ⟨allTiesPair, C1_ranking_comparator_three_keys.2.1 [paperR3, paperR3] allTiesPair⟩

/-! ## Claim C2 -/

/-- C2 counterexample: the claim states that general text such as
"General" maps to the worst rank 99, but `getDiseaseRank "General"` is 6
(the general/neurodegenerative facet of the fixed lookup). -/
theorem C2_counterexample_general_text_rank :
    getDiseaseRank "General" = 6 ∧ ¬ getDiseaseRank "General" = 99 := by
  decide

/-- C2 (amended): the disease-facet rank function maps disease-type text by
a fixed lookup to a rank 1–10 with ALS = 1 and CBD = 10;
general/neurodegenerative/"all types" text is itself one of the facets and
maps to rank 6; text matching none of the lookup's patterns maps to the
worst rank, 99. -/
theorem C2_amended_disease_rank_lookup :
    (∀ s : String, matchesNoFacet s → getDiseaseRank s = 99)
    ∧ (getDiseaseRank "ALS" = 1 ∧ getDiseaseRank "Amyotrophic lateral sclerosis" = 1
      ∧ getDiseaseRank "MND" = 2 ∧ getDiseaseRank "AD" = 3 ∧ getDiseaseRank "PD" = 4
      ∧ getDiseaseRank "FTD" = 5 ∧ getDiseaseRank "General" = 6
      ∧ getDiseaseRank "Neurodegenerative disease" = 6
      ∧ getDiseaseRank "MSA" = 7 ∧ getDiseaseRank "HD" = 8
      ∧ getDiseaseRank "PSP" = 9 ∧ getDiseaseRank "CBD" = 10) := by
  constructor
  · intro s h
    simp only [matchesNoFacet, facetText] at h
    obtain ⟨h1, h2, h3, h4, h5, h6, h7, h8, h9, h10, h11, h12, h13, h14, h15,
      h16, h17, h18, h19, h20, h21⟩ := h
    simp [getDiseaseRank, h1, h2, h3, h4, h5, h6, h7, h8, h9, h10, h11, h12,
      h13, h14, h15, h16, h17, h18, h19, h20, h21]
  · decide

/-- C2 amended witness: a concrete unrecognized disease text. -/
theorem C2_amended_witness :
    matchesNoFacet "COVID" ∧ getDiseaseRank "COVID" = 99 :=
  ⟨by decide, C2_amended_disease_rank_lookup.1 "COVID" (by decide)⟩

/-! ## Claim C3 -/

/-- C3: deduplication iterates parsed records in parse order, keying each
record by the first 6-or-more-digit numeric substring of its PMID/DOI field
when present and otherwise by the lowercased, alphanumeric-only,
50-char-truncated prefix of its English title, and keeps only the first
record observed per key (`specDedup` is the spec-side first-seen-wins
recursion).  Two records with the same 6+-digit PMID substring collapse to
the first, and two records with no such substring but identical normalized
title prefixes collapse to the first. -/
theorem C3_dedup_first_seen_wins :
    (∀ l : List Paper, dedupPapers l = specDedup l)
    ∧ dedupPapers [paperPmidA, paperPmidB] = [paperPmidA]
    ∧ dedupPapers [paperTitleA, paperTitleB] = [paperTitleA]
    ∧ dedupKey paperPmidA = "34567890" ∧ dedupKey paperPmidB = "34567890"
    ∧ dedupKey paperTitleA = "helloworld" ∧ dedupKey paperTitleB = "helloworld" :=
  ⟨dedupPapers_eq_specDedup, by decide, by decide, by decide, by decide,
    by decide, by decide⟩

/-! ## Claim C9 -/

/-- C9: the claim states that date assembly joins the present parts with
dash separators and trims any trailing separator, and in particular that a
year-only record yields exactly the year.  The code's replace chain runs
the trailing-dash replace before the double-dash replace, so a year-only
record yields "2024-" (and a year+day record yields "202415"); only the
day-absent case is trimmed as claimed. -/
theorem C9_date_assembly_trailing_separator :
    assemblePubDate "2024" "Mar" "15" = "2024-Mar-15"
    ∧ assemblePubDate "2024" "Mar" "" = "2024-Mar"
    ∧ assemblePubDate "2024" "" "" = "2024-"
    ∧ assemblePubDate "2024" "" "" ≠ "2024"
    ∧ assemblePubDate "2024" "" "15" = "202415" := by
  decide

/-! ## Batch accumulation lemmas (C6) -/

theorem strJoin_contains (x : String) :
    ∀ l : List String, x ∈ l → strContains (strJoin l) x := by
  intro l
  induction l with
  | nil => intro h; exact absurd h (List.not_mem_nil x)
  | cons s rest ih =>
    intro hx
    rcases List.mem_cons.mp hx with h | h
    · refine ⟨[], (strJoin rest).data, ?_⟩
      subst h
      rw [show strJoin (x :: rest) = x ++ strJoin rest from rfl, String.data_append]
      simp
    · obtain ⟨u, v, hu⟩ := ih h
      refine ⟨s.data ++ u, v, ?_⟩
      rw [show strJoin (s :: rest) = s ++ strJoin rest from rfl, String.data_append, hu]
      simp

theorem batch_foldl (svc : Nat → Except Unit (String × List GroundingChunk))
    (papers : List PubMedRawData) :
    ∀ (r : List Nat) (init : String × List GroundingChunk × Nat),
      r.foldl (batchStep svc papers) init
        = (init.1 ++ strJoin (r.map (batchBlock svc papers)),
           init.2.1 ++ (r.map (batchGC svc)).flatten,
           init.2.2 + r.length) := by
  intro r
  induction r with
  | nil => intro init; simp [strJoin]
  | cons b bs ih =>
    intro init
    rw [List.foldl_cons, ih]
    cases h : svc (10 * b) with
    | ok v =>
      obtain ⟨txt, cs⟩ := v
      simp [batchStep, h, batchBlock, batchGC, strJoin, String.append_assoc,
        List.append_assoc]
      omega
    | error e =>
      simp [batchStep, h, batchBlock, batchGC, strJoin, String.append_assoc,
        List.append_assoc]
      omega

theorem processPapers_eq (svc : Nat → Except Unit (String × List GroundingChunk))
    (papers : List PubMedRawData) :
    processPapersInBatches svc papers
      = (strJoin ((List.range ((papers.length + 9) / 10)).map (batchBlock svc papers)),
         ((List.range ((papers.length + 9) / 10)).map (batchGC svc)).flatten,
         (papers.length + 9) / 10) := by
  rw [processPapersInBatches, batch_foldl]
  simp

/-! ## Claim C6 -/

/-- C6: for K input records the batch loop issues exactly
ceil(K/10) = (K+9)/10 enrichment requests (hence at least that many); a
successful batch's response text appears in the accumulated text; a failed
batch contributes its inline error marker instead while processing
continues, so every other batch's text still appears; and the grounding
chunks of the successful batches are accumulated in batch order then
within-batch order. -/
theorem C6_batch_failure_isolation
    (svc : Nat → Except Unit (String × List GroundingChunk))
    (papers : List PubMedRawData) :
    ((processPapersInBatches svc papers).2.2 = (papers.length + 9) / 10)
    ∧ (∀ b t cs, 10 * b < papers.length → svc (10 * b) = Except.ok (t, cs) →
        strContains (processPapersInBatches svc papers).1 t)
    ∧ (∀ b, 10 * b < papers.length → svc (10 * b) = Except.error () →
        strContains (processPapersInBatches svc papers).1
          (errMarker (10 * b) ((papers.drop (10 * b)).take 10).length))
    ∧ ((processPapersInBatches svc papers).2.1
        = ((List.range ((papers.length + 9) / 10)).map (batchGC svc)).flatten) := by
  refine ⟨by rw [processPapers_eq], ?_, ?_, by rw [processPapers_eq]⟩
  · intro b t cs hb hsvc
    have hbmem : b ∈ List.range ((papers.length + 9) / 10) :=
      List.mem_range.mpr (by omega)
    have hblock : batchBlock svc papers b = t ++ "\n\n---\n\n" := by
      simp [batchBlock, hsvc]
    obtain ⟨u, v, hu⟩ :=
      strJoin_contains _ _ (List.mem_map_of_mem (batchBlock svc papers) hbmem)
    rw [processPapers_eq]
    refine ⟨u, ("\n\n---\n\n" : String).data ++ v, ?_⟩
    rw [hu, hblock, String.data_append]
    simp
  · intro b hb hsvc
    have hbmem : b ∈ List.range ((papers.length + 9) / 10) :=
      List.mem_range.mpr (by omega)
    have hblock : batchBlock svc papers b
        = errMarker (10 * b) ((papers.drop (10 * b)).take 10).length := by
      simp [batchBlock, hsvc]
    obtain ⟨u, v, hu⟩ :=
      strJoin_contains _ _ (List.mem_map_of_mem (batchBlock svc papers) hbmem)
    rw [processPapers_eq]
    refine ⟨u, v, ?_⟩
    rw [hu, hblock]

/-- C6 witness: with eleven records, batch 0 succeeding and batch 1
failing, the failed batch's error marker is present in the accumulated
text. -/
theorem C6_witness :
    (10 * 1 < papers11.length) ∧ (svcMix (10 * 1) = Except.error ())
    ∧ strContains (processPapersInBatches svcMix papers11).1
        (errMarker (10 * 1) ((papers11.drop (10 * 1)).take 10).length) :=
  ⟨by decide, rfl,
    (C6_batch_failure_isolation svcMix papers11).2.2.1 1 (by decide) rfl⟩

/-! ## Claim C7 -/

/-- C7: with zero identifiers the pipeline returns an empty paper list and
the "no papers found" message without issuing any enrichment request; with
identifiers but zero detail records it returns an empty list and the
distinct "failed to fetch details" message, again with zero enrichment
requests. -/
theorem C7_total_failure_short_circuit :
    (∀ (freshId : Nat → String) svc rawData,
      fetchLiteratureUpdates freshId svc [] rawData
        = ([], "No papers found in PubMed for this criteria.", [], 0))
    ∧ (∀ (freshId : Nat → String) svc pmids, pmids ≠ [] →
      fetchLiteratureUpdates freshId svc pmids []
        = ([], "Found IDs but failed to fetch details from PubMed.", [], 0))
    ∧ ("No papers found in PubMed for this criteria."
        ≠ "Found IDs but failed to fetch details from PubMed.") := by
  refine ⟨?_, ?_, by decide⟩
  · intro freshId svc rawData
    rfl
  · intro freshId svc pmids h
    rw [fetchLiteratureUpdates,
      if_neg (fun hl => h (List.length_eq_zero.mp hl))]
    rfl

/-- C7 witness: the identifiers-but-no-details branch at a concrete
input. -/
theorem C7_witness :
    ((["12345678"] : List String) ≠ [])
    ∧ fetchLiteratureUpdates idGen svcFail ["12345678"] []
        = ([], "Found IDs but failed to fetch details from PubMed.", [], 0) :=
  ⟨by decide,
    C7_total_failure_short_circuit.2.1 idGen svcFail ["12345678"] (by decide)⟩

/-! ## Claim C8 -/

/-- C8: the claim says a cooperative cancellation token is passed through
every network call and checked between calls so a cancelled search unwinds
with a distinguished "cancelled by user" condition.  In the code,
`App.handleSearch` passes `controller.signal` as a third argument, but
`fetchLiteratureUpdates` declares only `(topic, timeframe)` and no network
call receives the signal, so the result is independent of the abort state:
a cancelled run still issues its enrichment request and returns the normal
accumulated text, never a cancelled variant. -/
theorem C8_cancellation_signal_ignored :
    (∀ (aborted : Bool) (freshId : Nat → String) svc pmids rawData,
      fetchLiteratureUpdatesWithSignal aborted freshId svc pmids rawData
        = fetchLiteratureUpdates freshId svc pmids rawData)
    ∧ (fetchLiteratureUpdatesWithSignal true idGen svcOkEmpty
        ["12345678"] [dummyRaw]).2.2.2 = 1
    ∧ (fetchLiteratureUpdatesWithSignal true idGen svcOkEmpty
        ["12345678"] [dummyRaw]).2.1 = "\n\n---\n\n"
    ∧ fetchLiteratureUpdatesWithSignal true idGen svcOkEmpty
        ["12345678"] [dummyRaw]
      = fetchLiteratureUpdatesWithSignal false idGen svcOkEmpty
        ["12345678"] [dummyRaw] :=
  ⟨fun _ _ _ _ _ => rfl, rfl, rfl, rfl⟩

/-! ## Parser structure lemmas (C5) -/

theorem parseSections_length (freshId : Nat → String) :
    ∀ (secs : List String) (i : Nat),
      (parseSections freshId i secs).length
        = (secs.filter (fun s => (findHeading s).isSome)).length := by
  intro secs
  induction secs with
  | nil => intro i; rfl
  | cons sect rest ih =>
    intro i
    cases h : findHeading sect with
    | some t => simp [parseSections, h, List.filter_cons, ih]
    | none => simp [parseSections, h, List.filter_cons, ih]

theorem parseSections_mem (freshId : Nat → String) :
    ∀ (secs : List String) (i : Nat) (p : Paper), p ∈ parseSections freshId i secs →
      ∃ s ∈ secs, ∃ t, findHeading s = some t
        ∧ ∃ j, p = mkPaperFromSection freshId j s t := by
  intro secs
  induction secs with
  | nil =>
    intro i p hp
    simp [parseSections] at hp
  | cons sect rest ih =>
    intro i p hp
    cases h : findHeading sect with
    | some t =>
      simp only [parseSections, h] at hp
      rcases List.mem_cons.mp hp with h1 | h1
      · exact ⟨sect, List.mem_cons_self sect rest, t, h, i, h1⟩
      · obtain ⟨s, hs, t', ht', j, hj⟩ := ih (i + 1) p h1
        exact ⟨s, List.mem_cons_of_mem _ hs, t', ht', j, hj⟩
    | none =>
      simp only [parseSections, h] at hp
      obtain ⟨s, hs, t', ht', j, hj⟩ := ih (i + 1) p hp
      exact ⟨s, List.mem_cons_of_mem _ hs, t', ht', j, hj⟩

/-! ## Claim C5 -/

/-- C5: the parser is total by construction over every string; it splits
the input on the literal `---` delimiter, trims segments and discards the
empty ones (`sectionsOf`); it produces exactly one record per section whose
heading regex matches and no record for any other section; a recognized
record's title is the trimmed heading capture, its rawText is the section,
and every absent labelled field carries its documented textual default. -/
theorem C5_parser_total_heading_defaults (freshId : Nat → String) (text : String) :
    (rawPapersOf freshId text).length
      = ((sectionsOf text).filter (fun s => (findHeading s).isSome)).length
    ∧ ∀ p ∈ rawPapersOf freshId text,
        ∃ s ∈ sectionsOf text,
          (∃ t, findHeading s = some t ∧ p.titleEn = jsTrim t)
          ∧ p.rawText = s ∧ fieldDefaults p s := by
  refine ⟨parseSections_length freshId (sectionsOf text) 0, ?_⟩
  intro p hp
  obtain ⟨s, hs, t, ht, j, hj⟩ :=
    parseSections_mem freshId (sectionsOf text) 0 p hp
  subst hj
  refine ⟨s, hs, ⟨t, ht, rfl⟩, rfl, ?_⟩
  unfold fieldDefaults
  repeat' constructor
  all_goals (intro h; simp [mkPaperFromSection, h])

/-- C5 witness: the record-count characterization at a concrete input with
one headed section, one heading-free section and one empty segment. -/
theorem C5_witness :
    (rawPapersOf idGen "### A\nbody---no heading here---").length
      = ((sectionsOf "### A\nbody---no heading here---").filter
          (fun s => (findHeading s).isSome)).length :=
  (C5_parser_total_heading_defaults idGen "### A\nbody---no heading here---").1

/-! ## Frame lemmas (C10) -/

theorem dedupGo_sublist : ∀ (l : List Paper) (seen : List String),
    List.Sublist (dedupGo seen l) l := by
  intro l
  induction l with
  | nil => intro seen; simp [dedupGo]
  | cons p rest ih =>
    intro seen
    rw [dedupGo]
    by_cases h : dedupKey p ∈ seen
    · rw [if_pos h]
      exact (ih seen).cons p
    · rw [if_neg h]
      exact (ih (dedupKey p :: seen)).cons₂ p

theorem insertPaper_perm (x : Paper) :
    ∀ l : List Paper, (insertPaper x l).Perm (x :: l) := by
  intro l
  induction l with
  | nil => exact List.Perm.refl _
  | cons y ys ih =>
    rw [insertPaper]
    by_cases h : comparePapers y x < 0
    · rw [if_pos h]
      exact (List.Perm.cons y ih).trans (List.Perm.swap x y ys)
    · rw [if_neg h]

theorem sortPapers_perm : ∀ l : List Paper, (sortPapers l).Perm l := by
  intro l
  induction l with
  | nil => exact List.Perm.refl _
  | cons x xs ih =>
    have hstep : sortPapers (x :: xs) = insertPaper x (sortPapers xs) := rfl
    rw [hstep]
    exact (insertPaper_perm x (sortPapers xs)).trans (List.Perm.cons x ih)

/-! ## Claim C10 -/

/-- C10: the dedup-and-rank phase only selects and reorders parsed records:
the final output is a permutation of a sublist of the parsed raw records,
and every surviving record is one of the parsed records with every field
exactly as the parser built it. -/
theorem C10_dedup_sort_frame (freshId : Nat → String) (text : String) :
    (∃ l', List.Sublist l' (rawPapersOf freshId text)
      ∧ (parsePapersFromMarkdown freshId text).Perm l')
    ∧ ∀ p ∈ parsePapersFromMarkdown freshId text, p ∈ rawPapersOf freshId text := by
  have hsub : List.Sublist (dedupPapers (rawPapersOf freshId text)) (rawPapersOf freshId text) :=
    dedupGo_sublist _ []
  have hperm : (parsePapersFromMarkdown freshId text).Perm
      (dedupPapers (rawPapersOf freshId text)) := sortPapers_perm _
  refine ⟨⟨_, hsub, hperm⟩, ?_⟩
  intro p hp
  exact hsub.subset (hperm.subset hp)

/-- C10 witness: the frame property at a concrete parsed text. -/
theorem C10_witness :
    ∃ l', List.Sublist l' (rawPapersOf idGen "### A\nbody---### A\nbody---")
      ∧ (parsePapersFromMarkdown idGen "### A\nbody---### A\nbody---").Perm l' :=
  (C10_dedup_sort_frame idGen "### A\nbody---### A\nbody---").1

/-! ## Low-level scanning lemmas (C4) -/

theorem contains_nil (pat : List Char) : containsList pat [] = pat.isEmpty := rfl

theorem contains_cons (pat : List Char) (c : Char) (rest : List Char) :
    containsList pat (c :: rest)
      = (pat.isPrefixOf (c :: rest) || containsList pat rest) := rfl

theorem findKeyRem_cons (pat : List Char) (c : Char) (l : List Char) :
    findKeyRem pat (c :: l)
      = if pat.isPrefixOf ((c :: l).map Char.toLower) then some ((c :: l).drop pat.length)
        else findKeyRem pat l := rfl

theorem findKeyRem_cons_ne (pat : List Char) (c : Char) (l : List Char)
    (h : pat.isPrefixOf ((c :: l).map Char.toLower) = false) :
    findKeyRem pat (c :: l) = findKeyRem pat l := by
  rw [findKeyRem_cons, h]
  simp

theorem not_prefix_of_head_ne (a c : Char) (pr l : List Char)
    (h : Char.toLower c ≠ a) :
    (a :: pr).isPrefixOf ((c :: l).map Char.toLower) = false := by
  simp [List.isPrefixOf, Ne.symm h]

theorem pair_prefix_iff (lc : Char) (rest : List Char) :
    (['*', '*'].isPrefixOf (lc :: rest) = true) ↔ (lc = '*' ∧ rest.head? = some '*') := by
  cases rest with
  | nil => simp [List.isPrefixOf]
  | cons r rs =>
    simp only [List.isPrefixOf, Bool.and_eq_true, beq_iff_eq, List.head?_cons,
      Option.some.injEq]
    constructor
    · rintro ⟨h1, h2, _⟩
      exact ⟨h1.symm, h2.symm⟩
    · rintro ⟨h1, h2⟩
      exact ⟨h1.symm, h2.symm, by simp [List.isPrefixOf]⟩

theorem star2_prefix_eq (pr l : List Char)
    (h : ('*' :: '*' :: pr).isPrefixOf l = true) :
    (['*', '*'] : List Char).isPrefixOf l = true := by
  cases l with
  | nil => simp [List.isPrefixOf] at h
  | cons a rest =>
    cases rest with
    | nil => simp [List.isPrefixOf] at h
    | cons b rest' =>
      simp only [List.isPrefixOf, Bool.and_eq_true] at h ⊢
      exact ⟨h.1, h.2.1, by simp [List.isPrefixOf]⟩

theorem isPrefixOf_self_append : ∀ (a b : List Char), a.isPrefixOf (a ++ b) = true := by
  intro a b
  induction a with
  | nil => simp [List.isPrefixOf]
  | cons c a' ih => simp [List.isPrefixOf, ih]

theorem isPrefixOf_append_cases :
    ∀ (a b x y : List Char), (a ++ x).isPrefixOf (b ++ y) = true →
      a.isPrefixOf b = true ∨ b.isPrefixOf a = true := by
  intro a
  induction a with
  | nil => intro b x y _; left; cases b <;> rfl
  | cons c a' ih =>
    intro b x y h
    cases b with
    | nil => right; rfl
    | cons d b' =>
      simp only [List.cons_append, List.isPrefixOf, Bool.and_eq_true] at h
      obtain ⟨hcd, hrest⟩ := h
      have hc : c = d := beq_iff_eq.mp hcd
      subst hc
      rcases ih b' x y hrest with h3 | h3
      · left; simp [List.isPrefixOf, h3]
      · right; simp [List.isPrefixOf, h3]

theorem run_prefixOf_append (a : Char) :
    ∀ (p : List Char), (∀ c ∈ p, c = a) → ∀ (x y : List Char), p ≠ [] →
      p.isPrefixOf (x ++ y) = true →
      x = [] ∨ p.isPrefixOf x = true ∨ (x.getLast? = some a ∧ y.head? = some a) := by
  intro p
  induction p with
  | nil => intro _ x y hne; exact absurd rfl hne
  | cons a0 p' ih =>
    intro hall x y _ hpre
    have ha0 : a0 = a := hall a0 (List.mem_cons_self _ _)
    cases x with
    | nil => exact Or.inl rfl
    | cons c x' =>
      simp only [List.cons_append, List.isPrefixOf, Bool.and_eq_true] at hpre
      obtain ⟨hcd, hrest⟩ := hpre
      have hc : a0 = c := beq_iff_eq.mp hcd
      by_cases hp' : p' = []
      · subst hp'
        right; left
        simp [List.isPrefixOf, hcd]
      · rcases ih (fun e he => hall e (List.mem_cons_of_mem _ he)) x' y hp' hrest
          with h1 | h1 | h1
        · subst h1
          right; right
          refine ⟨by simp [← hc, ha0], ?_⟩
          cases y with
          | nil =>
            cases p' with
            | nil => exact absurd rfl hp'
            | cons q qs => simp [List.isPrefixOf] at hrest
          | cons y0 ys =>
            cases p' with
            | nil => exact absurd rfl hp'
            | cons q qs =>
              simp only [List.nil_append, List.isPrefixOf, Bool.and_eq_true] at hrest
              have hq0 : q = y0 := beq_iff_eq.mp hrest.1
              have hqa : q = a := hall q (by simp)
              simp [← hq0, hqa]
        · right; left
          simp [List.isPrefixOf, hcd, h1]
        · right; right
          refine ⟨?_, h1.2⟩
          have hx' : x' ≠ [] := by
            intro hh
            rw [hh] at h1
            simp at h1
          cases x' with
          | nil => exact absurd rfl hx'
          | cons d t =>
            rw [List.getLast?_cons_cons]
            exact h1.1

theorem contains_run_append (a : Char) (p : List Char) (hne : p ≠ [])
    (hall : ∀ c ∈ p, c = a) :
    ∀ (x y : List Char), containsList p x = false → containsList p y = false →
      (x.getLast? ≠ some a ∨ y.head? ≠ some a) →
      containsList p (x ++ y) = false := by
  intro x
  induction x with
  | nil => intro y _ hy _; simpa using hy
  | cons c x' ih =>
    intro y hx hy hb
    rw [contains_cons] at hx
    have hx1 : p.isPrefixOf (c :: x') = false := by
      cases h' : p.isPrefixOf (c :: x') with
      | false => rfl
      | true => rw [h'] at hx; simp at hx
    have hx2 : containsList p x' = false := by
      cases h' : containsList p x' with
      | false => rfl
      | true => rw [h'] at hx; simp at hx
    rw [List.cons_append, contains_cons]
    have hfirst : p.isPrefixOf (c :: (x' ++ y)) = false := by
      cases h' : p.isPrefixOf (c :: (x' ++ y)) with
      | false => rfl
      | true =>
        exfalso
        rcases run_prefixOf_append a p hall (c :: x') y hne
            (by rw [show (c :: x') ++ y = c :: (x' ++ y) from rfl]; exact h') with
          h1 | h1 | h1
        · simp at h1
        · rw [h1] at hx1; simp at hx1
        · rcases hb with hb | hb
          · exact hb h1.1
          · exact hb h1.2
    rw [hfirst]
    have hb' : x'.getLast? ≠ some a ∨ y.head? ≠ some a := by
      rcases hb with hb | hb
      · cases x' with
        | nil => left; simp
        | cons d t =>
          left
          rw [List.getLast?_cons_cons] at hb
          exact hb
      · right; exact hb
    rw [ih y hx2 hy hb']
    simp

theorem contains_run_not_mem (a : Char) (p : List Char) (hne : p ≠ [])
    (hall : ∀ c ∈ p, c = a) :
    ∀ l : List Char, a ∉ l → containsList p l = false := by
  intro l
  induction l with
  | nil =>
    intro _
    rw [contains_nil]
    cases p with
    | nil => exact absurd rfl hne
    | cons q qs => rfl
  | cons c l' ih =>
    intro hmem
    rw [contains_cons]
    have h1 : p.isPrefixOf (c :: l') = false := by
      cases p with
      | nil => exact absurd rfl hne
      | cons a0 p' =>
        have ha0 : a0 = a := hall a0 (List.mem_cons_self _ _)
        have hca : a0 ≠ c := by
          intro hh
          apply hmem
          rw [← ha0, hh]
          exact List.mem_cons_self c l'
        simp [List.isPrefixOf, hca]
    rw [h1, ih (fun hh => hmem (List.mem_cons_of_mem _ hh))]
    rfl

theorem head_append_take_one (x y : List Char) :
    (x ++ y.take 1).head? = (x ++ y).head? := by
  cases x with
  | nil =>
    cases y with
    | nil => rfl
    | cons y0 ys => rfl
  | cons c x' => rfl

theorem findKeyRem_skip_noStars (pr : List Char) :
    ∀ (x tail : List Char),
      containsList ['*', '*'] ((x ++ tail.take 1).map Char.toLower) = false →
      findKeyRem ('*' :: '*' :: pr) (x ++ tail) = findKeyRem ('*' :: '*' :: pr) tail := by
  intro x
  induction x with
  | nil => intro tail _; rfl
  | cons c x' ih =>
    intro tail h
    rw [List.cons_append, List.map_cons, contains_cons] at h
    rw [Bool.or_eq_false_iff] at h
    obtain ⟨h1, h2⟩ := h
    have key : (['*', '*'] : List Char).isPrefixOf
        (Char.toLower c :: (x' ++ tail).map Char.toLower) = false := by
      cases hq : (['*', '*'] : List Char).isPrefixOf
          (Char.toLower c :: (x' ++ tail).map Char.toLower) with
      | false => rfl
      | true =>
        exfalso
        obtain ⟨ha, hb⟩ := (pair_prefix_iff _ _).mp hq
        have hb' : ((x' ++ tail.take 1).map Char.toLower).head? = some '*' := by
          rw [List.head?_map] at hb ⊢
          rw [head_append_take_one]
          exact hb
        have htrue : (['*', '*'] : List Char).isPrefixOf
            (Char.toLower c :: (x' ++ tail.take 1).map Char.toLower) = true :=
          (pair_prefix_iff _ _).mpr ⟨ha, hb'⟩
        rw [htrue] at h1
        exact Bool.noConfusion h1
    have hmis : ('*' :: '*' :: pr).isPrefixOf
        ((c :: (x' ++ tail)).map Char.toLower) = false := by
      rw [List.map_cons]
      cases hq : ('*' :: '*' :: pr).isPrefixOf
          (Char.toLower c :: (x' ++ tail).map Char.toLower) with
      | false => rfl
      | true =>
        exfalso
        rw [star2_prefix_eq pr _ hq] at key
        exact Bool.noConfusion key
    rw [List.cons_append, findKeyRem_cons_ne _ _ _ hmis]
    exact ih tail h2

/-! ## takeWhile, dropWhile, capture and trim lemmas (C4) -/

theorem takeWhile_append_cons (p : Char → Bool) :
    ∀ (x : List Char) (c : Char) (z : List Char),
      (∀ a ∈ x, p a = true) → p c = false → (x ++ c :: z).takeWhile p = x := by
  intro x
  induction x with
  | nil =>
    intro c z _ hc
    simp [List.takeWhile_cons, hc]
  | cons d x' ih =>
    intro c z hall hc
    rw [List.cons_append, List.takeWhile_cons, hall d (List.mem_cons_self _ _)]
    rw [ih c z (fun a ha => hall a (List.mem_cons_of_mem _ ha)) hc]
    simp

theorem dropWhile_append_cons (p : Char → Bool) :
    ∀ (x : List Char) (c : Char) (z : List Char),
      (∀ a ∈ x, p a = true) → p c = false → (x ++ c :: z).dropWhile p = c :: z := by
  intro x
  induction x with
  | nil =>
    intro c z _ hc
    simp [List.dropWhile_cons, hc]
  | cons d x' ih =>
    intro c z hall hc
    rw [List.cons_append, List.dropWhile_cons, hall d (List.mem_cons_self _ _)]
    simp only [if_true]
    exact ih c z (fun a ha => hall a (List.mem_cons_of_mem _ ha)) hc

theorem captureUntil_cons (c : Char) (rest : List Char) :
    captureUntil (c :: rest)
      = if ((['\n', '*', '*'] : List Char).isPrefixOf (c :: rest)
            || (['\n', '-', '-', '-'] : List Char).isPrefixOf (c :: rest)) then []
        else c :: captureUntil rest := rfl

theorem captureUntil_append :
    ∀ (v tail : List Char), (∀ c ∈ v, c ≠ '\n') →
      (tail = [] ∨ (['\n', '*', '*'] : List Char).isPrefixOf tail = true
        ∨ (['\n', '-', '-', '-'] : List Char).isPrefixOf tail = true) →
      captureUntil (v ++ tail) = v := by
  intro v
  induction v with
  | nil =>
    intro tail _ ht
    rcases ht with rfl | ht | ht
    · rfl
    · cases tail with
      | nil => simp [List.isPrefixOf] at ht
      | cons t0 ts =>
        rw [List.nil_append, captureUntil_cons, ht]
        simp
    · cases tail with
      | nil => simp [List.isPrefixOf] at ht
      | cons t0 ts =>
        rw [List.nil_append, captureUntil_cons, ht]
        simp
  | cons c v' ih =>
    intro tail hv ht
    have hc : c ≠ '\n' := hv c (List.mem_cons_self _ _)
    have hcond1 : (['\n', '*', '*'] : List Char).isPrefixOf (c :: (v' ++ tail)) = false := by
      simp [List.isPrefixOf, Ne.symm hc]
    have hcond2 : (['\n', '-', '-', '-'] : List Char).isPrefixOf (c :: (v' ++ tail)) = false := by
      simp [List.isPrefixOf, Ne.symm hc]
    rw [List.cons_append, captureUntil_cons, hcond1, hcond2]
    simp only [Bool.or_self, Bool.false_eq_true, if_false]
    rw [ih tail (fun a ha => hv a (List.mem_cons_of_mem _ ha)) ht]

theorem dropWhile_len (p : Char → Bool) (l : List Char) :
    l.dropWhile p = l ∨ (l.dropWhile p).length < l.length := by
  cases l with
  | nil => left; rfl
  | cons c t =>
    rw [List.dropWhile_cons]
    by_cases hc : p c = true
    · right
      rw [if_pos hc]
      have := (List.dropWhile_sublist (l := t) p).length_le
      simp only [List.length_cons]
      omega
    · left
      rw [if_neg hc]

theorem jsTrimList_sandwich (pre post : List Char) (c : Char) (x : List Char)
    (hpre : ∀ a ∈ pre, isJsWs a = true) (hpost : ∀ a ∈ post, isJsWs a = true)
    (hc : isJsWs c = false)
    (hlast : ∀ d, (c :: x).getLast? = some d → isJsWs d = false) :
    jsTrimList (pre ++ (c :: x) ++ post) = c :: x := by
  rw [jsTrimList]
  have h1 : (pre ++ (c :: x) ++ post).dropWhile isJsWs = (c :: x) ++ post := by
    rw [List.append_assoc, List.cons_append]
    rw [show pre ++ (c :: (x ++ post)) = pre ++ c :: (x ++ post) from rfl]
    rw [dropWhile_append_cons isJsWs pre c (x ++ post) hpre hc]
  rw [h1, List.reverse_append]
  have hne : (c :: x).reverse ≠ [] := by simp
  obtain ⟨d, t, hdt⟩ : ∃ d t, (c :: x).reverse = d :: t := by
    cases hr : (c :: x).reverse with
    | nil => exact absurd hr hne
    | cons d t => exact ⟨d, t, rfl⟩
  have hd : isJsWs d = false := by
    apply hlast
    rw [← List.head?_reverse, hdt]
    rfl
  rw [hdt, dropWhile_append_cons isJsWs post.reverse d t
    (fun a ha => hpost a (List.mem_reverse.mp ha)) hd, ← hdt, List.reverse_reverse]

/-! ## Split lemmas (C4) -/

theorem splitDashes_nil : splitDashes [] = [[]] := by
  rw [splitDashes.eq_def]

theorem splitDashes_eq (c : Char) (rest : List Char) :
    splitDashes (c :: rest)
      = if (['-', '-', '-'] : List Char).isPrefixOf (c :: rest) then
          [] :: splitDashes (rest.drop 2)
        else
          match splitDashes rest with
          | s :: ss => (c :: s) :: ss
          | [] => [[c]] := by
  rw [splitDashes.eq_def]

theorem triple_prefix_eval (a b c : Char) (l : List Char) :
    (['-', '-', '-'] : List Char).isPrefixOf (a :: b :: c :: l)
      = (('-' == a) && ('-' == b) && ('-' == c)) := by
  simp [List.isPrefixOf, Bool.and_assoc]

theorem splitDashes_no_sep :
    ∀ u : List Char, containsList ['-', '-', '-'] u = false → splitDashes u = [u] := by
  intro u
  induction u with
  | nil => intro _; exact splitDashes_nil
  | cons c u' ih =>
    intro h
    rw [contains_cons, Bool.or_eq_false_iff] at h
    rw [splitDashes_eq, h.1]
    simp only [Bool.false_eq_true, if_false]
    rw [ih h.2]

theorem splitDashes_append_sep :
    ∀ (u rest : List Char), containsList ['-', '-', '-'] u = false →
      u.getLast? ≠ some '-' →
      splitDashes (u ++ '-' :: '-' :: '-' :: rest) = u :: splitDashes rest := by
  intro u
  induction u with
  | nil =>
    intro rest _ _
    rw [List.nil_append, splitDashes_eq]
    simp [List.isPrefixOf]
  | cons c u' ih =>
    intro rest h hlast
    rw [contains_cons, Bool.or_eq_false_iff] at h
    rw [List.cons_append, splitDashes_eq]
    have hcond : (['-', '-', '-'] : List Char).isPrefixOf
        (c :: (u' ++ '-' :: '-' :: '-' :: rest)) = false := by
      cases u' with
      | nil =>
        have hcne : c ≠ '-' := by
          intro hh
          exact hlast (by rw [hh]; rfl)
        rw [List.nil_append, triple_prefix_eval]
        simp [Ne.symm hcne]
      | cons d u'' =>
        cases u'' with
        | nil =>
          have hdne : d ≠ '-' := by
            intro hh
            exact hlast (by rw [hh]; rfl)
          rw [List.cons_append, List.nil_append, triple_prefix_eval]
          simp [Ne.symm hdne]
        | cons e u''' =>
          rw [List.cons_append, List.cons_append, triple_prefix_eval]
          rw [triple_prefix_eval] at h
          exact h.1
    rw [hcond]
    simp only [Bool.false_eq_true, if_false]
    have hlast' : u'.getLast? ≠ some '-' := by
      cases u' with
      | nil => simp
      | cons d t =>
        rw [List.getLast?_cons_cons] at hlast
        exact hlast
    rw [ih rest h.2 hlast']

/-! ## Field-line extraction lemmas (C4) -/

theorem keyPat_eq (q : String) :
    keyPat q = '*' :: '*' :: (q.data.map Char.toLower ++ ['*', '*', ':']) := by
  rw [keyPat, String.data_append, String.data_append]
  have h1 : ("**" : String).data = ['*', '*'] := rfl
  have h2 : ("**:" : String).data = ['*', '*', ':'] := rfl
  rw [h1, h2, List.map_append, List.map_append]
  have h3 : (['*', '*'] : List Char).map Char.toLower = ['*', '*'] := by decide
  have h4 : (['*', '*', ':'] : List Char).map Char.toLower = ['*', '*', ':'] := by decide
  rw [h3, h4]
  simp

theorem linesOf_data_cons (k v : String) (rest : List (String × String)) :
    (linesOf ((k, v) :: rest)).data
      = '\n' :: '*' :: '*'
          :: (k.data ++ '*' :: '*' :: ':' :: ' ' :: (v.data ++ (linesOf rest).data)) := by
  show ("\n**" ++ k ++ "**: " ++ v ++ linesOf rest).data = _
  rw [String.data_append, String.data_append, String.data_append, String.data_append]
  have h1 : ("\n**" : String).data = ['\n', '*', '*'] := rfl
  have h2 : ("**: " : String).data = ['*', '*', ':', ' '] := rfl
  rw [h1, h2]
  simp

theorem star2_unfold (rest l : List Char) :
    (('*' :: '*' :: rest).isPrefixOf ('*' :: '*' :: l)) = rest.isPrefixOf l := by
  simp [List.isPrefixOf]

theorem star2_second_ne (pr : List Char) (m0 : Char) (ml : List Char)
    (h : m0 ≠ '*') : ('*' :: '*' :: pr).isPrefixOf ('*' :: m0 :: ml) = false := by
  simp [List.isPrefixOf, Ne.symm h]

theorem head_ne_prefix_false (x0 : Char) (xr : List Char) (c : Char) (l : List Char)
    (h : x0 ≠ c) : ((x0 :: xr).isPrefixOf (c :: l)) = false := by
  simp [List.isPrefixOf, h]

theorem contains_pair_small (a : Char) :
    ∀ (l : List Char), l.length ≤ 1 → containsList [a, a] l = false := by
  intro l hl
  cases l with
  | nil => rfl
  | cons c t =>
    cases t with
    | nil => simp [contains_cons, contains_nil, List.isPrefixOf]
    | cons d t' => simp at hl

theorem take_one_head (l : List Char) : (l.take 1).head? = l.head? := by
  cases l <;> rfl

theorem skip_line (q k v : String) (tail : List Char)
    (hq : keyOkP q) (hk : keyOkP k) (hv : goodVal v) (hind : keysIndep q k)
    (htail : (tail.map Char.toLower).head? ≠ some '*') :
    findKeyRem (keyPat q)
      ('\n' :: '*' :: '*' :: (k.data ++ '*' :: '*' :: ':' :: ' ' :: (v.data ++ tail)))
      = findKeyRem (keyPat q) tail := by
  obtain ⟨hqne, hqstar, hqcolon⟩ := hq
  obtain ⟨hkne, hkstar, _⟩ := hk
  -- step 0: skip the newline
  rw [findKeyRem_cons_ne]
  case h =>
    rw [keyPat_eq]
    exact not_prefix_of_head_ne '*' '\n' _ _ (by decide)
  -- step 1: the label-opening star pair does not match a different key
  rw [findKeyRem_cons_ne]
  case h =>
    rw [keyPat_eq, List.map_cons, List.map_cons]
    cases hpre : ('*' :: '*' :: (q.data.map Char.toLower ++ ['*', '*', ':'])).isPrefixOf
        (Char.toLower '*' :: Char.toLower '*'
          :: (k.data ++ '*' :: '*' :: ':' :: ' ' :: (v.data ++ tail)).map Char.toLower) with
    | false => rfl
    | true =>
      exfalso
      rw [show Char.toLower '*' = '*' from by decide, star2_unfold] at hpre
      rw [List.map_append] at hpre
      rcases isPrefixOf_append_cases _ _ _ _ hpre with hcase | hcase
      · rw [hind.1] at hcase
        exact Bool.noConfusion hcase
      · rw [hind.2] at hcase
        exact Bool.noConfusion hcase
  -- step 2: the second opening star
  rw [findKeyRem_cons_ne]
  case h =>
    rw [keyPat_eq, List.map_cons]
    cases hkd : k.data with
    | nil =>
      exact absurd (by apply String.ext; rw [hkd]) hkne
    | cons k0 k' =>
      rw [show Char.toLower '*' = '*' from by decide]
      rw [List.cons_append, List.map_cons]
      apply star2_second_ne
      intro hh
      apply hkstar
      rw [hkd, List.map_cons, hh]
      exact List.mem_cons_self _ _
  -- step 3: skip the key characters
  rw [show (k.data ++ '*' :: '*' :: ':' :: ' ' :: (v.data ++ tail))
      = k.data ++ ('*' :: '*' :: ':' :: ' ' :: (v.data ++ tail)) from rfl]
  rw [keyPat_eq, findKeyRem_skip_noStars]
  case a =>
    rw [List.map_append]
    apply contains_run_append '*' ['*', '*'] (by decide) (by decide)
    · exact contains_run_not_mem '*' ['*', '*'] (by decide) (by decide) _ hkstar
    · apply contains_pair_small
      simp [List.length_take]
    · left
      intro hh
      exact hkstar (List.mem_of_mem_getLast? hh)
  -- step 4: the label-closing star pair (pattern key cannot start with colon)
  rw [findKeyRem_cons_ne]
  case h =>
    rw [List.map_cons, List.map_cons, show Char.toLower '*' = '*' from by decide,
      star2_unfold]
    cases hqd : q.data.map Char.toLower with
    | nil =>
      exfalso
      apply hqne
      cases hq' : q.data with
      | nil => exact String.ext hq'
      | cons q0 q' => rw [hq', List.map_cons] at hqd; exact List.noConfusion hqd
    | cons lq0 lq' =>
      rw [List.cons_append, List.map_cons,
        show Char.toLower ':' = ':' from by decide]
      apply head_ne_prefix_false
      intro hh
      apply hqcolon
      rw [hqd, List.head?_cons, hh]
  -- step 5: the second closing star
  rw [findKeyRem_cons_ne]
  case h =>
    rw [List.map_cons, List.map_cons,
      show Char.toLower '*' = '*' from by decide,
      show Char.toLower ':' = ':' from by decide]
    exact star2_second_ne _ ':' _ (by decide)
  -- step 6: skip the colon, the space and the value
  rw [show (':' :: ' ' :: (v.data ++ tail)) = (':' :: ' ' :: v.data) ++ tail from by simp]
  rw [findKeyRem_skip_noStars]
  case a =>
    rw [List.map_append]
    apply contains_run_append '*' ['*', '*'] (by decide) (by decide)
    · rw [List.map_cons, List.map_cons,
        show Char.toLower ':' = ':' from by decide,
        show Char.toLower ' ' = ' ' from by decide]
      rw [contains_cons, contains_cons]
      rw [head_ne_prefix_false '*' ['*'] ':' _ (by decide)]
      rw [head_ne_prefix_false '*' ['*'] ' ' _ (by decide)]
      rw [hv.2.2.2.2]
      rfl
    · apply contains_pair_small
      simp [List.length_take]
    · right
      rw [List.head?_map, take_one_head]
      rw [List.head?_map] at htail
      exact htail

theorem match_line (q v : String) (tail : List Char) (hqne : q ≠ "") :
    findKeyRem (keyPat q)
      ('\n' :: '*' :: '*' :: (q.data ++ '*' :: '*' :: ':' :: ' ' :: (v.data ++ tail)))
      = some (' ' :: (v.data ++ tail)) := by
  rw [findKeyRem_cons_ne]
  case h =>
    rw [keyPat_eq]
    exact not_prefix_of_head_ne '*' '\n' _ _ (by decide)
  rw [findKeyRem_cons]
  have hmatch : (keyPat q).isPrefixOf
      (('*' :: '*' :: (q.data ++ '*' :: '*' :: ':' :: ' ' :: (v.data ++ tail))).map
        Char.toLower) = true := by
    rw [keyPat_eq, List.map_cons, List.map_cons,
      show Char.toLower '*' = '*' from by decide, star2_unfold, List.map_append]
    rw [show ('*' :: '*' :: ':' :: ' ' :: (v.data ++ tail)).map Char.toLower
        = '*' :: '*' :: ':' :: ' ' :: (v.data ++ tail).map Char.toLower from by
      simp only [List.map_cons]
      rw [show Char.toLower '*' = '*' from by decide,
        show Char.toLower ':' = ':' from by decide,
        show Char.toLower ' ' = ' ' from by decide]]
    rw [show (q.data.map Char.toLower
          ++ '*' :: '*' :: ':' :: ' ' :: (v.data ++ tail).map Char.toLower)
        = (q.data.map Char.toLower ++ ['*', '*', ':'])
          ++ (' ' :: (v.data ++ tail).map Char.toLower) from by simp]
    exact isPrefixOf_self_append _ _
  rw [hmatch]
  simp only [if_true]
  congr 1
  have hshape : ('*' :: '*' :: (q.data ++ '*' :: '*' :: ':' :: ' ' :: (v.data ++ tail)))
      = (('*' :: '*' :: q.data) ++ ['*', '*', ':']) ++ (' ' :: (v.data ++ tail)) := by
    simp
  rw [hshape]
  have hlen : (keyPat q).length
      = (('*' :: '*' :: q.data) ++ ['*', '*', ':'] : List Char).length := by
    rw [keyPat_eq]
    simp
  rw [hlen, List.drop_left]

theorem linesOf_head_star (fs : List (String × String)) :
    (((linesOf fs).data).map Char.toLower).head? ≠ some '*' := by
  cases fs with
  | nil =>
    show ((("" : String).data).map Char.toLower).head? ≠ some '*'
    simp
  | cons kv rest =>
    obtain ⟨k, v⟩ := kv
    rw [linesOf_data_cons, List.map_cons, List.head?_cons]
    intro hh
    have h2 : Char.toLower '\n' = '*' := Option.some.inj hh
    rw [show Char.toLower '\n' = '\n' from by decide] at h2
    exact absurd h2 (by decide)

theorem trimmed_head (c : Char) (t : List Char) (h : jsTrimList (c :: t) = c :: t) :
    isJsWs c = false := by
  by_contra hc
  rw [Bool.not_eq_false] at hc
  have hlen : (jsTrimList (c :: t)).length ≤ t.length := by
    rw [jsTrimList]
    have h1 : (c :: t).dropWhile isJsWs = t.dropWhile isJsWs := by
      rw [List.dropWhile_cons, if_pos hc]
    rw [h1, List.length_reverse]
    calc ((t.dropWhile isJsWs).reverse.dropWhile isJsWs).length
        ≤ (t.dropWhile isJsWs).reverse.length :=
          (List.dropWhile_sublist isJsWs).length_le
      _ = (t.dropWhile isJsWs).length := List.length_reverse _
      _ ≤ t.length := (List.dropWhile_sublist isJsWs).length_le
  rw [h] at hlen
  simp at hlen

theorem trimmed_last (l : List Char) (h : jsTrimList l = l) (d : Char)
    (hd : l.getLast? = some d) : isJsWs d = false := by
  by_contra hc
  rw [Bool.not_eq_false] at hc
  cases hdw : l.dropWhile isJsWs with
  | nil =>
    have hnil : jsTrimList l = [] := by
      rw [jsTrimList, hdw]
      rfl
    rw [h] at hnil
    rw [hnil] at hd
    exact absurd hd (by simp)
  | cons a s =>
    have hlast2 : (l.dropWhile isJsWs).getLast? = some d := by
      rw [← hd]
      conv_rhs => rw [← List.takeWhile_append_dropWhile isJsWs l]
      exact (List.getLast?_append_of_ne_nil _ (by rw [hdw]; simp)).symm
    have hrev : (l.dropWhile isJsWs).reverse.head? = some d := by
      rw [List.head?_reverse]
      exact hlast2
    obtain ⟨u, hu⟩ : ∃ u, (l.dropWhile isJsWs).reverse = d :: u := by
      cases hr : (l.dropWhile isJsWs).reverse with
      | nil =>
        rw [hr] at hrev
        exact absurd hrev (by simp)
      | cons b u =>
        rw [hr] at hrev
        have hb : b = d := Option.some.inj hrev
        exact ⟨u, by rw [← hb]⟩
    have hdroplen : (l.dropWhile isJsWs).length = u.length + 1 := by
      rw [← List.length_reverse (l.dropWhile isJsWs), hu]
      rfl
    have hlen : (jsTrimList l).length < l.length := by
      rw [jsTrimList, List.length_reverse, hu, List.dropWhile_cons, if_pos hc]
      calc (u.dropWhile isJsWs).length
          ≤ u.length := (List.dropWhile_sublist isJsWs).length_le
        _ < u.length + 1 := Nat.lt_succ_self _
        _ = (l.dropWhile isJsWs).length := hdroplen.symm
        _ ≤ l.length := (List.dropWhile_sublist isJsWs).length_le
    rw [h] at hlen
    exact absurd hlen (lt_irrefl _)

theorem goodVal_data_shape (v : String) (hv : goodVal v) :
    ∃ c t, v.data = c :: t ∧ isJsWs c = false := by
  obtain ⟨hne, htrim, _, _, _⟩ := hv
  cases hd : v.data with
  | nil =>
    exfalso
    apply hne
    cases v with
    | mk data =>
      cases hd
      rfl
  | cons c t =>
    refine ⟨c, t, rfl, ?_⟩
    apply trimmed_head c t
    have h2 := congrArg String.data htrim
    rw [show (jsTrim v).data = jsTrimList v.data from rfl] at h2
    rw [hd] at h2
    exact h2

theorem goodVal_last (v : String) (hv : goodVal v) (d : Char)
    (hd : v.data.getLast? = some d) : isJsWs d = false := by
  have htrim := congrArg String.data hv.2.1
  rw [show (jsTrim v).data = jsTrimList v.data from rfl] at htrim
  exact trimmed_last v.data htrim d hd

theorem goodVal_no_newline (v : String) (hv : goodVal v) :
    ∀ c ∈ v.data, c ≠ '\n' := by
  intro c hc heq
  have h2 := hv.2.2.1 c hc
  rw [heq] at h2
  exact absurd h2 (by decide)

theorem takeWhile_all (p : Char → Bool) :
    ∀ l : List Char, (∀ a ∈ l, p a = true) → l.takeWhile p = l := by
  intro l
  induction l with
  | nil => intro _; rfl
  | cons c t ih =>
    intro h
    rw [List.takeWhile_cons, if_pos (h c (List.mem_cons_self c t))]
    rw [ih (fun a ha => h a (List.mem_cons_of_mem c ha))]

theorem linesOf_head_nl (fs : List (String × String)) :
    (linesOf fs).data = [] ∨ ((linesOf fs).data).head? = some '\n' := by
  cases fs with
  | nil => left; rfl
  | cons kv rest =>
    right
    obtain ⟨k, v⟩ := kv
    rw [linesOf_data_cons]
    rfl

theorem linesOf_capture_stop (fs : List (String × String)) :
    (linesOf fs).data = []
      ∨ (['\n', '*', '*'] : List Char).isPrefixOf ((linesOf fs).data) = true := by
  cases fs with
  | nil => left; rfl
  | cons kv rest =>
    right
    obtain ⟨k, v⟩ := kv
    rw [linesOf_data_cons]
    simp [List.isPrefixOf]

theorem extract_lines (q : String) (hq : keyOkP q) :
    ∀ (fs1 : List (String × String)) (v : String) (fs2 : List (String × String)),
      (∀ kv ∈ fs1, keyOkP kv.1 ∧ goodVal kv.2) →
      (∀ kv ∈ fs1, keysIndep q kv.1) →
      findKeyRem (keyPat q) ((linesOf (fs1 ++ (q, v) :: fs2)).data)
        = some (' ' :: (v.data ++ (linesOf fs2).data)) := by
  intro fs1
  induction fs1 with
  | nil =>
    intro v fs2 _ _
    rw [List.nil_append, linesOf_data_cons]
    exact match_line q v _ hq.1
  | cons kv fs1x ih =>
    intro v fs2 hgood hind
    obtain ⟨k, w⟩ := kv
    rw [List.cons_append, linesOf_data_cons]
    rw [skip_line q k w ((linesOf (fs1x ++ (q, v) :: fs2)).data) hq
      (hgood (k, w) (List.mem_cons_self _ _)).1
      (hgood (k, w) (List.mem_cons_self _ _)).2
      (hind (k, w) (List.mem_cons_self _ _))
      (linesOf_head_star _)]
    exact ih v fs2 (fun kv2 h2 => hgood kv2 (List.mem_cons_of_mem _ h2))
      (fun kv2 h2 => hind kv2 (List.mem_cons_of_mem _ h2))

theorem build_data (T L : String) :
    ("### " ++ T ++ L).data = '#' :: '#' :: '#' :: ' ' :: (T.data ++ L.data) := by
  rw [String.data_append, String.data_append]
  rfl

theorem tryTitle_build (T : String) (lines : List Char) (hT : goodVal T)
    (hl : lines = [] ∨ lines.head? = some '\n') :
    tryTitle (' ' :: (T.data ++ lines)) = some T.data := by
  obtain ⟨c, t, hct, hcws⟩ := goodVal_data_shape T hT
  have hdrop : (' ' :: (T.data ++ lines)).dropWhile isJsWs = T.data ++ lines := by
    rw [List.dropWhile_cons, if_pos (show isJsWs ' ' = true from by decide)]
    rw [hct, List.cons_append, List.dropWhile_cons,
      if_neg (by rw [hcws]; exact Bool.false_ne_true), ← List.cons_append, ← hct]
  rw [tryTitle, hdrop]
  have hne : (T.data ++ lines).isEmpty = false := by
    rw [hct, List.cons_append]
    rfl
  rw [hne]
  simp only [Bool.false_eq_true, if_false]
  congr 1
  have hallT : ∀ a ∈ T.data, (fun c => !isLineTerm c) a = true := by
    intro a ha
    have h2 := hT.2.2.1 a ha
    rw [show (fun c => !isLineTerm c) a = !isLineTerm a from rfl, h2]
    rfl
  rcases hl with hnil | hhd
  · rw [hnil, List.append_nil]
    exact takeWhile_all _ _ hallT
  · obtain ⟨ltl, hltl⟩ : ∃ ltl, lines = '\n' :: ltl := by
      cases lines with
      | nil => exact absurd hhd (by simp)
      | cons x xs => exact ⟨xs, by rw [show x = '\n' from Option.some.inj hhd]⟩
    rw [hltl]
    exact takeWhile_append_cons _ T.data '\n' ltl hallT (by decide)

theorem findHeadingChars_step (c : Char) (rest : List Char) :
    findHeadingChars (c :: rest)
      = if (['#', '#', '#'] : List Char).isPrefixOf (c :: rest) then
          match tryTitle ((c :: rest).drop 3) with
          | some t => some t
          | none => findHeadingChars rest
        else findHeadingChars rest := by
  rw [findHeadingChars]

theorem findHeading_build (T : String) (fs : List (String × String)) (hT : goodVal T) :
    findHeading ("### " ++ T ++ linesOf fs) = some (⟨T.data⟩ : String) := by
  rw [findHeading, build_data, findHeadingChars_step]
  rw [if_pos (show (['#', '#', '#'] : List Char).isPrefixOf
    ('#' :: '#' :: '#' :: ' ' :: (T.data ++ (linesOf fs).data)) = true from by
      simp [List.isPrefixOf])]
  rw [show ('#' :: '#' :: '#' :: ' ' :: (T.data ++ (linesOf fs).data)).drop 3
      = ' ' :: (T.data ++ (linesOf fs).data) from rfl]
  rw [tryTitle_build T ((linesOf fs).data) hT (linesOf_head_nl fs)]
  rfl

theorem extractField_build (T : String) (fs1 : List (String × String)) (q v : String)
    (fs2 : List (String × String)) (hq : keyOkP q) (hT : goodVal T) (hv : goodVal v)
    (hgood : ∀ kv ∈ fs1, keyOkP kv.1 ∧ goodVal kv.2)
    (hind : ∀ kv ∈ fs1, keysIndep q kv.1) :
    extractField ("### " ++ T ++ linesOf (fs1 ++ (q, v) :: fs2)) q = some v := by
  rw [extractField, build_data]
  have hsplit : ('#' :: '#' :: '#' :: ' '
        :: (T.data ++ (linesOf (fs1 ++ (q, v) :: fs2)).data))
      = ('#' :: '#' :: '#' :: ' ' :: T.data)
        ++ (linesOf (fs1 ++ (q, v) :: fs2)).data := by
    simp
  have hx : containsList ['*', '*']
      (('#' :: '#' :: '#' :: ' ' :: T.data).map Char.toLower) = false := by
    rw [show ('#' :: '#' :: '#' :: ' ' :: T.data)
        = ['#', '#', '#', ' '] ++ T.data from rfl, List.map_append]
    apply contains_run_append '*' ['*', '*'] (by decide) (by decide)
    · decide
    · exact hT.2.2.2.2
    · left
      decide
  have hy : containsList ['*', '*']
      ((((linesOf (fs1 ++ (q, v) :: fs2)).data).take 1).map Char.toLower) = false := by
    apply contains_pair_small
    rw [List.length_map, List.length_take]
    exact min_le_left _ _
  have hb : (('#' :: '#' :: '#' :: ' ' :: T.data).map Char.toLower).getLast? ≠ some '*'
      ∨ ((((linesOf (fs1 ++ (q, v) :: fs2)).data).take 1).map Char.toLower).head?
          ≠ some '*' := by
    right
    rw [List.head?_map, take_one_head, ← List.head?_map]
    exact linesOf_head_star _
  have hstarfree : containsList ['*', '*']
      ((('#' :: '#' :: '#' :: ' ' :: T.data)
        ++ ((linesOf (fs1 ++ (q, v) :: fs2)).data).take 1).map Char.toLower) = false := by
    rw [List.map_append]
    exact contains_run_append '*' ['*', '*'] (by decide) (by decide) _ _ hx hy hb
  rw [hsplit, keyPat_eq]
  rw [findKeyRem_skip_noStars (q.data.map Char.toLower ++ ['*', '*', ':'])
    ('#' :: '#' :: '#' :: ' ' :: T.data) ((linesOf (fs1 ++ (q, v) :: fs2)).data) hstarfree]
  rw [← keyPat_eq, extract_lines q hq fs1 v fs2 hgood hind]
  show some (⟨jsTrimList (captureUntil
    ((' ' :: (v.data ++ (linesOf fs2).data)).dropWhile isJsWs))⟩ : String) = some v
  obtain ⟨c, t, hct, hcws⟩ := goodVal_data_shape v hv
  have hdrop : (' ' :: (v.data ++ (linesOf fs2).data)).dropWhile isJsWs
      = v.data ++ (linesOf fs2).data := by
    rw [List.dropWhile_cons, if_pos (show isJsWs ' ' = true from by decide)]
    rw [hct, List.cons_append, List.dropWhile_cons,
      if_neg (by rw [hcws]; exact Bool.false_ne_true), ← List.cons_append, ← hct]
  rw [hdrop]
  have hcap : captureUntil (v.data ++ (linesOf fs2).data) = v.data := by
    apply captureUntil_append v.data ((linesOf fs2).data) (goodVal_no_newline v hv)
    rcases linesOf_capture_stop fs2 with hnil | hpre
    · exact Or.inl hnil
    · exact Or.inr (Or.inl hpre)
  rw [hcap]
  have htrim2 := congrArg String.data hv.2.1
  rw [show (jsTrim v).data = jsTrimList v.data from rfl] at htrim2
  rw [htrim2]

theorem contains_cons_ne (pat : List Char) (p0 : Char) (pr : List Char)
    (hpat : pat = p0 :: pr) (c : Char) (hc : p0 ≠ c) (l : List Char) :
    containsList pat (c :: l) = containsList pat l := by
  rw [contains_cons, hpat, head_ne_prefix_false p0 pr c l hc]
  simp

theorem fieldsOf_good (r : GrammarRecord) (h : goodRecord r) :
    ∀ kv ∈ fieldsOf r, keyOkP kv.1 ∧ goodVal kv.2 := by
  intro kv hkv
  obtain ⟨h1, h2, h3, h4, h5, h6, h7, h8, h9, h10, h11, h12, h13, h14, h15, h16, h17⟩ := h
  rw [fieldsOf] at hkv
  simp only [List.mem_cons, List.not_mem_nil, or_false] at hkv
  rcases hkv with rfl | rfl | rfl | rfl | rfl | rfl | rfl | rfl | rfl | rfl | rfl | rfl
    | rfl | rfl | rfl | rfl
  · exact ⟨(by decide : keyOkP "中文标题"), h2⟩
  · exact ⟨(by decide : keyOkP "第一作者"), h3⟩
  · exact ⟨(by decide : keyOkP "第一单位"), h4⟩
  · exact ⟨(by decide : keyOkP "通讯作者"), h5⟩
  · exact ⟨(by decide : keyOkP "期刊"), h6⟩
  · exact ⟨(by decide : keyOkP "发表日期"), h7⟩
  · exact ⟨(by decide : keyOkP "PMID/DOI"), h8⟩
  · exact ⟨(by decide : keyOkP "影响因子"), h9⟩
  · exact ⟨(by decide : keyOkP "疾病类型"), h10⟩
  · exact ⟨(by decide : keyOkP "研究类型"), h11⟩
  · exact ⟨(by decide : keyOkP "样本量"), h12⟩
  · exact ⟨(by decide : keyOkP "链接"), h13⟩
  · exact ⟨(by decide : keyOkP "研究问题"), h14⟩
  · exact ⟨(by decide : keyOkP "结论要点"), h15⟩
  · exact ⟨(by decide : keyOkP "摘要"), h16⟩
  · exact ⟨(by decide : keyOkP "临床终点详情"), h17⟩

theorem fieldsOf_dash_free (r : GrammarRecord) (h : goodRecord r) :
    ∀ kv ∈ fieldsOf r,
      ('-' ∉ kv.1.data) ∧ containsList ['-', '-', '-'] kv.2.data = false := by
  intro kv hkv
  have hg := fieldsOf_good r h kv hkv
  refine ⟨?_, hg.2.2.2.2.1⟩
  have hm := List.mem_map_of_mem Prod.fst hkv
  have hconc : (fieldsOf r).map Prod.fst
      = ["中文标题", "第一作者", "第一单位", "通讯作者", "期刊", "发表日期",
         "PMID/DOI", "影响因子", "疾病类型", "研究类型", "样本量", "链接",
         "研究问题", "结论要点", "摘要", "临床终点详情"] := rfl
  rw [hconc] at hm
  have hdash : ∀ k ∈ ["中文标题", "第一作者", "第一单位", "通讯作者", "期刊",
      "发表日期", "PMID/DOI", "影响因子", "疾病类型", "研究类型", "样本量", "链接",
      "研究问题", "结论要点", "摘要", "临床终点详情"], '-' ∉ k.data := by decide
  exact hdash kv.1 hm

theorem linesOf_no_triple :
    ∀ fs : List (String × String),
      (∀ kv ∈ fs, ('-' ∉ kv.1.data) ∧ containsList ['-', '-', '-'] kv.2.data = false) →
      containsList ['-', '-', '-'] ((linesOf fs).data) = false := by
  intro fs
  induction fs with
  | nil => intro _; rfl
  | cons kv rest ih =>
    intro h
    obtain ⟨k, w⟩ := kv
    obtain ⟨hk, hw⟩ := h (k, w) (List.mem_cons_self _ _)
    have hrest := ih (fun kv2 h2 => h kv2 (List.mem_cons_of_mem _ h2))
    have hresthead : ((linesOf rest).data).head? ≠ some '-' := by
      rcases linesOf_head_nl rest with hnil | hhd
      · rw [hnil]; simp
      · rw [hhd]; simp
    rw [linesOf_data_cons]
    rw [contains_cons_ne _ '-' ['-', '-'] rfl '\n' (by decide),
        contains_cons_ne _ '-' ['-', '-'] rfl '*' (by decide),
        contains_cons_ne _ '-' ['-', '-'] rfl '*' (by decide)]
    apply contains_run_append '-' ['-', '-', '-'] (by decide) (by decide)
    · exact contains_run_not_mem '-' ['-', '-', '-'] (by decide) (by decide) k.data hk
    · rw [contains_cons_ne _ '-' ['-', '-'] rfl '*' (by decide),
          contains_cons_ne _ '-' ['-', '-'] rfl '*' (by decide),
          contains_cons_ne _ '-' ['-', '-'] rfl ':' (by decide),
          contains_cons_ne _ '-' ['-', '-'] rfl ' ' (by decide)]
      exact contains_run_append '-' ['-', '-', '-'] (by decide) (by decide) _ _
        hw hrest (Or.inr hresthead)
    · right
      simp

theorem sectString_no_triple (r : GrammarRecord) (h : goodRecord r) :
    containsList ['-', '-', '-'] ((sectString r).data) = false := by
  have hdata : (sectString r).data
      = '#' :: '#' :: '#' :: ' ' :: (r.titleEn.data ++ (linesOf (fieldsOf r)).data) :=
    build_data r.titleEn (linesOf (fieldsOf r))
  rw [hdata]
  rw [contains_cons_ne _ '-' ['-', '-'] rfl '#' (by decide),
      contains_cons_ne _ '-' ['-', '-'] rfl '#' (by decide),
      contains_cons_ne _ '-' ['-', '-'] rfl '#' (by decide),
      contains_cons_ne _ '-' ['-', '-'] rfl ' ' (by decide)]
  apply contains_run_append '-' ['-', '-', '-'] (by decide) (by decide)
  · exact h.1.2.2.2.1
  · exact linesOf_no_triple (fieldsOf r) (fieldsOf_dash_free r h)
  · right
    rcases linesOf_head_nl (fieldsOf r) with hnil | hhd
    · rw [hnil]; simp
    · rw [hhd]; simp

theorem linesOf_last :
    ∀ (fs : List (String × String)), (∀ kv ∈ fs, goodVal kv.2) →
      ∀ d, ((linesOf fs).data).getLast? = some d → isJsWs d = false := by
  intro fs
  induction fs with
  | nil =>
    intro _ d hd
    rw [show ((linesOf ([] : List (String × String))).data) = [] from rfl] at hd
    exact absurd hd (by simp)
  | cons kv rest ih =>
    intro hgood d hd
    obtain ⟨k, v⟩ := kv
    rw [linesOf_data_cons] at hd
    cases rest with
    | nil =>
      rw [show ((linesOf ([] : List (String × String))).data) = [] from rfl,
        List.append_nil] at hd
      have hv : goodVal v := hgood (k, v) (List.mem_cons_self _ _)
      obtain ⟨c, t, hct, _⟩ := goodVal_data_shape v hv
      have hvne : v.data ≠ [] := by rw [hct]; simp
      rw [show ('\n' :: '*' :: '*' :: (k.data ++ '*' :: '*' :: ':' :: ' ' :: v.data))
          = ('\n' :: '*' :: '*' :: (k.data ++ ['*', '*', ':', ' '])) ++ v.data from by
            simp] at hd
      rw [List.getLast?_append_of_ne_nil _ hvne] at hd
      exact goodVal_last v hv d hd
    | cons kv2 rest2 =>
      have hrne : (linesOf (kv2 :: rest2)).data ≠ [] := by
        obtain ⟨k2, v2⟩ := kv2
        rw [linesOf_data_cons]
        simp
      rw [show ('\n' :: '*' :: '*'
            :: (k.data ++ '*' :: '*' :: ':' :: ' '
                :: (v.data ++ (linesOf (kv2 :: rest2)).data)))
          = ('\n' :: '*' :: '*' :: (k.data ++ ['*', '*', ':', ' '] ++ v.data))
              ++ (linesOf (kv2 :: rest2)).data from by simp] at hd
      rw [List.getLast?_append_of_ne_nil _ hrne] at hd
      exact ih (fun kv3 h3 => hgood kv3 (List.mem_cons_of_mem _ h3)) d hd

theorem sectString_last (r : GrammarRecord) (h : goodRecord r) :
    ∀ d, ((sectString r).data).getLast? = some d → isJsWs d = false := by
  intro d hd
  have hdata : (sectString r).data
      = '#' :: '#' :: '#' :: ' ' :: (r.titleEn.data ++ (linesOf (fieldsOf r)).data) :=
    build_data r.titleEn (linesOf (fieldsOf r))
  rw [hdata] at hd
  have hlne : (linesOf (fieldsOf r)).data ≠ [] := by
    rw [fieldsOf, linesOf_data_cons]
    simp
  rw [show ('#' :: '#' :: '#' :: ' ' :: (r.titleEn.data ++ (linesOf (fieldsOf r)).data))
      = ('#' :: '#' :: '#' :: ' ' :: r.titleEn.data) ++ (linesOf (fieldsOf r)).data from by
        simp] at hd
  rw [List.getLast?_append_of_ne_nil _ hlne] at hd
  exact linesOf_last (fieldsOf r) (fun kv hkv => (fieldsOf_good r h kv hkv).2) d hd

theorem buildRecordBlock_data (r : GrammarRecord) :
    (buildRecordBlock r).data = (sectString r).data ++ ['\n', '-', '-', '-', '\n'] := by
  show (sectString r ++ "\n---\n").data = _
  rw [String.data_append]

theorem strJoin_cons (s : String) (l : List String) :
    (strJoin (s :: l)).data = s.data ++ (strJoin l).data := by
  show (s ++ strJoin l).data = _
  rw [String.data_append]

theorem split_build_aux :
    ∀ rs : List GrammarRecord, (∀ r ∈ rs, goodRecord r) →
      splitDashes ('\n' :: (strJoin (rs.map buildRecordBlock)).data)
        = (rs.map (fun r => '\n' :: ((sectString r).data ++ ['\n']))) ++ [['\n']] := by
  intro rs
  induction rs with
  | nil =>
    intro _
    show splitDashes ['\n'] = [['\n']]
    rw [splitDashes_eq]
    rw [show ((['-', '-', '-'] : List Char).isPrefixOf ['\n']) = false from by decide]
    simp only [Bool.false_eq_true, if_false]
    rw [splitDashes_nil]
  | cons r rest ih =>
    intro h
    have hsect := sectString_no_triple r (h r (List.mem_cons_self _ _))
    have hdata : '\n' :: (strJoin ((r :: rest).map buildRecordBlock)).data
        = ('\n' :: ((sectString r).data ++ ['\n']))
            ++ '-' :: '-' :: '-' :: ('\n' :: (strJoin (rest.map buildRecordBlock)).data) := by
      rw [List.map_cons, strJoin_cons, buildRecordBlock_data]
      simp
    rw [hdata]
    have hu_nc : containsList ['-', '-', '-']
        ('\n' :: ((sectString r).data ++ ['\n'])) = false := by
      rw [contains_cons_ne _ '-' ['-', '-'] rfl '\n' (by decide)]
      apply contains_run_append '-' ['-', '-', '-'] (by decide) (by decide)
      · exact hsect
      · decide
      · right; decide
    have hu_last : ('\n' :: ((sectString r).data ++ ['\n'])).getLast? ≠ some '-' := by
      rw [show '\n' :: ((sectString r).data ++ ['\n'])
          = ('\n' :: (sectString r).data) ++ ['\n'] from by simp]
      rw [List.getLast?_concat]
      decide
    rw [splitDashes_append_sep _ _ hu_nc hu_last]
    rw [ih (fun r2 h2 => h r2 (List.mem_cons_of_mem _ h2))]
    rw [List.map_cons, List.cons_append]

theorem sectString_trim (r : GrammarRecord) (h : goodRecord r) :
    jsTrimList ((sectString r).data ++ ['\n']) = (sectString r).data := by
  have hdata : (sectString r).data
      = '#' :: ('#' :: '#' :: ' ' :: (r.titleEn.data ++ (linesOf (fieldsOf r)).data)) :=
    build_data r.titleEn (linesOf (fieldsOf r))
  rw [hdata]
  have hlast : ∀ d, ('#' :: ('#' :: '#' :: ' '
      :: (r.titleEn.data ++ (linesOf (fieldsOf r)).data))).getLast? = some d →
      isJsWs d = false := by
    intro d hd
    rw [← hdata] at hd
    exact sectString_last r h d hd
  exact jsTrimList_sandwich [] ['\n'] '#'
    ('#' :: '#' :: ' ' :: (r.titleEn.data ++ (linesOf (fieldsOf r)).data))
    (by intro a ha; exact absurd ha (List.not_mem_nil a))
    (by intro a ha; rw [List.mem_singleton.mp ha]; rfl)
    (by decide) hlast

theorem sectString_trim_nl (r : GrammarRecord) (h : goodRecord r) :
    jsTrimList ('\n' :: ((sectString r).data ++ ['\n'])) = (sectString r).data := by
  have hdata : (sectString r).data
      = '#' :: ('#' :: '#' :: ' ' :: (r.titleEn.data ++ (linesOf (fieldsOf r)).data)) :=
    build_data r.titleEn (linesOf (fieldsOf r))
  rw [hdata]
  have hlast : ∀ d, ('#' :: ('#' :: '#' :: ' '
      :: (r.titleEn.data ++ (linesOf (fieldsOf r)).data))).getLast? = some d →
      isJsWs d = false := by
    intro d hd
    rw [← hdata] at hd
    exact sectString_last r h d hd
  exact jsTrimList_sandwich ['\n'] ['\n'] '#'
    ('#' :: '#' :: ' ' :: (r.titleEn.data ++ (linesOf (fieldsOf r)).data))
    (by intro a ha; rw [List.mem_singleton.mp ha]; rfl)
    (by intro a ha; rw [List.mem_singleton.mp ha]; rfl)
    (by decide) hlast

theorem sectString_ne_empty (r : GrammarRecord) : sectString r ≠ "" := by
  intro hcon
  have hd := congrArg String.data hcon
  have hdata : (sectString r).data
      = '#' :: '#' :: '#' :: ' ' :: (r.titleEn.data ++ (linesOf (fieldsOf r)).data) :=
    build_data r.titleEn (linesOf (fieldsOf r))
  rw [hdata, show ("" : String).data = [] from rfl] at hd
  exact List.noConfusion hd

theorem sections_build (rs : List GrammarRecord) (h : ∀ r ∈ rs, goodRecord r) :
    sectionsOf (buildMarkdown rs) = rs.map sectString := by
  cases rs with
  | nil =>
    show sectionsOf "" = []
    rw [sectionsOf, show ("" : String).data = [] from rfl, splitDashes_nil]
    rfl
  | cons r rest =>
    rw [sectionsOf]
    have hdata : (buildMarkdown (r :: rest)).data
        = ((sectString r).data ++ ['\n'])
            ++ '-' :: '-' :: '-' :: ('\n' :: (strJoin (rest.map buildRecordBlock)).data) := by
      show (strJoin ((r :: rest).map buildRecordBlock)).data = _
      rw [List.map_cons, strJoin_cons, buildRecordBlock_data]
      simp
    rw [hdata]
    have h1 := sectString_no_triple r (h r (List.mem_cons_self _ _))
    have hu_nc : containsList ['-', '-', '-'] ((sectString r).data ++ ['\n']) = false := by
      apply contains_run_append '-' ['-', '-', '-'] (by decide) (by decide)
      · exact h1
      · decide
      · right; decide
    have hu_last : ((sectString r).data ++ ['\n']).getLast? ≠ some '-' := by
      rw [List.getLast?_concat]
      decide
    rw [splitDashes_append_sep _ _ hu_nc hu_last]
    rw [split_build_aux rest (fun r2 h2 => h r2 (List.mem_cons_of_mem _ h2))]
    rw [List.map_cons, List.map_append, List.map_map]
    rw [sectString_trim r (h r (List.mem_cons_self _ _))]
    have hmapeq : rest.map ((fun l => (⟨jsTrimList l⟩ : String))
          ∘ (fun r2 => '\n' :: ((sectString r2).data ++ ['\n'])))
        = rest.map sectString := by
      apply List.map_eq_map_iff.mpr
      intro r2 hr2
      show (⟨jsTrimList ('\n' :: ((sectString r2).data ++ ['\n']))⟩ : String) = sectString r2
      rw [sectString_trim_nl r2 (h r2 (List.mem_cons_of_mem _ hr2))]
    rw [hmapeq]
    rw [show ((['\n'] : List Char) :: []).map (fun l => (⟨jsTrimList l⟩ : String))
        = [""] from by decide]
    rw [List.filter_cons, List.filter_append]
    rw [show (decide ((⟨(sectString r).data⟩ : String) ≠ "")) = true from by
      simp only [decide_eq_true_eq]
      intro hcon
      exact sectString_ne_empty r (by
        cases hr : sectString r with
        | mk d =>
          rw [hr] at hcon
          exact hcon)]
    rw [List.filter_eq_self.mpr (by
      intro a ha
      simp only [decide_eq_true_eq]
      obtain ⟨r2, hr2, hEq⟩ := List.mem_map.mp ha
      rw [← hEq]
      exact sectString_ne_empty r2)]
    rw [show ([("" : String)].filter fun s => decide (s ≠ "")) = [] from by decide]
    rw [List.append_nil]
    show (⟨(sectString r).data⟩ : String) :: rest.map sectString = _
    rfl

/-- Each grammar field of a conformant record survives the parse of its
own section verbatim. -/
theorem mkPaper_matches (freshId : Nat → String) (i : Nat) (r : GrammarRecord)
    (h : goodRecord r) :
    matchesRec (mkPaperFromSection freshId i (sectString r) (⟨r.titleEn.data⟩ : String)) r := by
  obtain ⟨h1, h2, h3, h4, h5, h6, h7, h8, h9, h10, h11, h12, h13,
    h14, h15, h16, h17⟩ := h
  have hrec : goodRecord r := ⟨h1, h2, h3, h4, h5, h6, h7, h8, h9, h10, h11,
    h12, h13, h14, h15, h16, h17⟩
  have e1 : extractField (sectString r) "中文标题" = some r.titleCn := by
    have hiq : ∀ k2 ∈ (([] : List String) : List String), keysIndep "中文标题" k2 := by decide
    exact extractField_build r.titleEn ([] : List (String × String)) "中文标题" r.titleCn
      [("第一作者", r.firstAuthor),
      ("第一单位", r.firstInstitution),
      ("通讯作者", r.correspondingAuthor),
      ("期刊", r.journal),
      ("发表日期", r.publishDate),
      ("PMID/DOI", r.pmidDoi),
      ("影响因子", r.impactFactor),
      ("疾病类型", r.diseaseType),
      ("研究类型", r.researchType),
      ("样本量", r.sampleSize),
      ("链接", r.url),
      ("研究问题", r.clinicalQuestion),
      ("结论要点", r.keyConclusions),
      ("摘要", r.abstract),
      ("临床终点详情", r.endpointsDetails)]
      (by decide) h1 h2
      (fun kv hkv => fieldsOf_good r hrec kv (List.mem_append_left
        (("中文标题", r.titleCn) :: [("第一作者", r.firstAuthor),
      ("第一单位", r.firstInstitution),
      ("通讯作者", r.correspondingAuthor),
      ("期刊", r.journal),
      ("发表日期", r.publishDate),
      ("PMID/DOI", r.pmidDoi),
      ("影响因子", r.impactFactor),
      ("疾病类型", r.diseaseType),
      ("研究类型", r.researchType),
      ("样本量", r.sampleSize),
      ("链接", r.url),
      ("研究问题", r.clinicalQuestion),
      ("结论要点", r.keyConclusions),
      ("摘要", r.abstract),
      ("临床终点详情", r.endpointsDetails)]) hkv))
      (fun kv hkv => hiq kv.1 (List.mem_map_of_mem Prod.fst hkv))
  have e2 : extractField (sectString r) "第一作者" = some r.firstAuthor := by
    have hiq : ∀ k2 ∈ (["中文标题"] : List String), keysIndep "第一作者" k2 := by decide
    exact extractField_build r.titleEn [("中文标题", r.titleCn)] "第一作者" r.firstAuthor
      [("第一单位", r.firstInstitution),
      ("通讯作者", r.correspondingAuthor),
      ("期刊", r.journal),
      ("发表日期", r.publishDate),
      ("PMID/DOI", r.pmidDoi),
      ("影响因子", r.impactFactor),
      ("疾病类型", r.diseaseType),
      ("研究类型", r.researchType),
      ("样本量", r.sampleSize),
      ("链接", r.url),
      ("研究问题", r.clinicalQuestion),
      ("结论要点", r.keyConclusions),
      ("摘要", r.abstract),
      ("临床终点详情", r.endpointsDetails)]
      (by decide) h1 h3
      (fun kv hkv => fieldsOf_good r hrec kv (List.mem_append_left
        (("第一作者", r.firstAuthor) :: [("第一单位", r.firstInstitution),
      ("通讯作者", r.correspondingAuthor),
      ("期刊", r.journal),
      ("发表日期", r.publishDate),
      ("PMID/DOI", r.pmidDoi),
      ("影响因子", r.impactFactor),
      ("疾病类型", r.diseaseType),
      ("研究类型", r.researchType),
      ("样本量", r.sampleSize),
      ("链接", r.url),
      ("研究问题", r.clinicalQuestion),
      ("结论要点", r.keyConclusions),
      ("摘要", r.abstract),
      ("临床终点详情", r.endpointsDetails)]) hkv))
      (fun kv hkv => hiq kv.1 (List.mem_map_of_mem Prod.fst hkv))
  have e3 : extractField (sectString r) "第一单位" = some r.firstInstitution := by
    have hiq : ∀ k2 ∈ (["中文标题", "第一作者"] : List String), keysIndep "第一单位" k2 := by decide
    exact extractField_build r.titleEn [("中文标题", r.titleCn),
      ("第一作者", r.firstAuthor)] "第一单位" r.firstInstitution
      [("通讯作者", r.correspondingAuthor),
      ("期刊", r.journal),
      ("发表日期", r.publishDate),
      ("PMID/DOI", r.pmidDoi),
      ("影响因子", r.impactFactor),
      ("疾病类型", r.diseaseType),
      ("研究类型", r.researchType),
      ("样本量", r.sampleSize),
      ("链接", r.url),
      ("研究问题", r.clinicalQuestion),
      ("结论要点", r.keyConclusions),
      ("摘要", r.abstract),
      ("临床终点详情", r.endpointsDetails)]
      (by decide) h1 h4
      (fun kv hkv => fieldsOf_good r hrec kv (List.mem_append_left
        (("第一单位", r.firstInstitution) :: [("通讯作者", r.correspondingAuthor),
      ("期刊", r.journal),
      ("发表日期", r.publishDate),
      ("PMID/DOI", r.pmidDoi),
      ("影响因子", r.impactFactor),
      ("疾病类型", r.diseaseType),
      ("研究类型", r.researchType),
      ("样本量", r.sampleSize),
      ("链接", r.url),
      ("研究问题", r.clinicalQuestion),
      ("结论要点", r.keyConclusions),
      ("摘要", r.abstract),
      ("临床终点详情", r.endpointsDetails)]) hkv))
      (fun kv hkv => hiq kv.1 (List.mem_map_of_mem Prod.fst hkv))
  have e4 : extractField (sectString r) "通讯作者" = some r.correspondingAuthor := by
    have hiq : ∀ k2 ∈ (["中文标题", "第一作者", "第一单位"] : List String), keysIndep "通讯作者" k2 := by decide
    exact extractField_build r.titleEn [("中文标题", r.titleCn),
      ("第一作者", r.firstAuthor),
      ("第一单位", r.firstInstitution)] "通讯作者" r.correspondingAuthor
      [("期刊", r.journal),
      ("发表日期", r.publishDate),
      ("PMID/DOI", r.pmidDoi),
      ("影响因子", r.impactFactor),
      ("疾病类型", r.diseaseType),
      ("研究类型", r.researchType),
      ("样本量", r.sampleSize),
      ("链接", r.url),
      ("研究问题", r.clinicalQuestion),
      ("结论要点", r.keyConclusions),
      ("摘要", r.abstract),
      ("临床终点详情", r.endpointsDetails)]
      (by decide) h1 h5
      (fun kv hkv => fieldsOf_good r hrec kv (List.mem_append_left
        (("通讯作者", r.correspondingAuthor) :: [("期刊", r.journal),
      ("发表日期", r.publishDate),
      ("PMID/DOI", r.pmidDoi),
      ("影响因子", r.impactFactor),
      ("疾病类型", r.diseaseType),
      ("研究类型", r.researchType),
      ("样本量", r.sampleSize),
      ("链接", r.url),
      ("研究问题", r.clinicalQuestion),
      ("结论要点", r.keyConclusions),
      ("摘要", r.abstract),
      ("临床终点详情", r.endpointsDetails)]) hkv))
      (fun kv hkv => hiq kv.1 (List.mem_map_of_mem Prod.fst hkv))
  have e5 : extractField (sectString r) "期刊" = some r.journal := by
    have hiq : ∀ k2 ∈ (["中文标题", "第一作者", "第一单位", "通讯作者"] : List String), keysIndep "期刊" k2 := by decide
    exact extractField_build r.titleEn [("中文标题", r.titleCn),
      ("第一作者", r.firstAuthor),
      ("第一单位", r.firstInstitution),
      ("通讯作者", r.correspondingAuthor)] "期刊" r.journal
      [("发表日期", r.publishDate),
      ("PMID/DOI", r.pmidDoi),
      ("影响因子", r.impactFactor),
      ("疾病类型", r.diseaseType),
      ("研究类型", r.researchType),
      ("样本量", r.sampleSize),
      ("链接", r.url),
      ("研究问题", r.clinicalQuestion),
      ("结论要点", r.keyConclusions),
      ("摘要", r.abstract),
      ("临床终点详情", r.endpointsDetails)]
      (by decide) h1 h6
      (fun kv hkv => fieldsOf_good r hrec kv (List.mem_append_left
        (("期刊", r.journal) :: [("发表日期", r.publishDate),
      ("PMID/DOI", r.pmidDoi),
      ("影响因子", r.impactFactor),
      ("疾病类型", r.diseaseType),
      ("研究类型", r.researchType),
      ("样本量", r.sampleSize),
      ("链接", r.url),
      ("研究问题", r.clinicalQuestion),
      ("结论要点", r.keyConclusions),
      ("摘要", r.abstract),
      ("临床终点详情", r.endpointsDetails)]) hkv))
      (fun kv hkv => hiq kv.1 (List.mem_map_of_mem Prod.fst hkv))
  have e6 : extractField (sectString r) "发表日期" = some r.publishDate := by
    have hiq : ∀ k2 ∈ (["中文标题", "第一作者", "第一单位", "通讯作者", "期刊"] : List String), keysIndep "发表日期" k2 := by decide
    exact extractField_build r.titleEn [("中文标题", r.titleCn),
      ("第一作者", r.firstAuthor),
      ("第一单位", r.firstInstitution),
      ("通讯作者", r.correspondingAuthor),
      ("期刊", r.journal)] "发表日期" r.publishDate
      [("PMID/DOI", r.pmidDoi),
      ("影响因子", r.impactFactor),
      ("疾病类型", r.diseaseType),
      ("研究类型", r.researchType),
      ("样本量", r.sampleSize),
      ("链接", r.url),
      ("研究问题", r.clinicalQuestion),
      ("结论要点", r.keyConclusions),
      ("摘要", r.abstract),
      ("临床终点详情", r.endpointsDetails)]
      (by decide) h1 h7
      (fun kv hkv => fieldsOf_good r hrec kv (List.mem_append_left
        (("发表日期", r.publishDate) :: [("PMID/DOI", r.pmidDoi),
      ("影响因子", r.impactFactor),
      ("疾病类型", r.diseaseType),
      ("研究类型", r.researchType),
      ("样本量", r.sampleSize),
      ("链接", r.url),
      ("研究问题", r.clinicalQuestion),
      ("结论要点", r.keyConclusions),
      ("摘要", r.abstract),
      ("临床终点详情", r.endpointsDetails)]) hkv))
      (fun kv hkv => hiq kv.1 (List.mem_map_of_mem Prod.fst hkv))
  have e7 : extractField (sectString r) "PMID/DOI" = some r.pmidDoi := by
    have hiq : ∀ k2 ∈ (["中文标题", "第一作者", "第一单位", "通讯作者", "期刊", "发表日期"] : List String), keysIndep "PMID/DOI" k2 := by decide
    exact extractField_build r.titleEn [("中文标题", r.titleCn),
      ("第一作者", r.firstAuthor),
      ("第一单位", r.firstInstitution),
      ("通讯作者", r.correspondingAuthor),
      ("期刊", r.journal),
      ("发表日期", r.publishDate)] "PMID/DOI" r.pmidDoi
      [("影响因子", r.impactFactor),
      ("疾病类型", r.diseaseType),
      ("研究类型", r.researchType),
      ("样本量", r.sampleSize),
      ("链接", r.url),
      ("研究问题", r.clinicalQuestion),
      ("结论要点", r.keyConclusions),
      ("摘要", r.abstract),
      ("临床终点详情", r.endpointsDetails)]
      (by decide) h1 h8
      (fun kv hkv => fieldsOf_good r hrec kv (List.mem_append_left
        (("PMID/DOI", r.pmidDoi) :: [("影响因子", r.impactFactor),
      ("疾病类型", r.diseaseType),
      ("研究类型", r.researchType),
      ("样本量", r.sampleSize),
      ("链接", r.url),
      ("研究问题", r.clinicalQuestion),
      ("结论要点", r.keyConclusions),
      ("摘要", r.abstract),
      ("临床终点详情", r.endpointsDetails)]) hkv))
      (fun kv hkv => hiq kv.1 (List.mem_map_of_mem Prod.fst hkv))
  have e8 : extractField (sectString r) "影响因子" = some r.impactFactor := by
    have hiq : ∀ k2 ∈ (["中文标题", "第一作者", "第一单位", "通讯作者", "期刊", "发表日期", "PMID/DOI"] : List String), keysIndep "影响因子" k2 := by decide
    exact extractField_build r.titleEn [("中文标题", r.titleCn),
      ("第一作者", r.firstAuthor),
      ("第一单位", r.firstInstitution),
      ("通讯作者", r.correspondingAuthor),
      ("期刊", r.journal),
      ("发表日期", r.publishDate),
      ("PMID/DOI", r.pmidDoi)] "影响因子" r.impactFactor
      [("疾病类型", r.diseaseType),
      ("研究类型", r.researchType),
      ("样本量", r.sampleSize),
      ("链接", r.url),
      ("研究问题", r.clinicalQuestion),
      ("结论要点", r.keyConclusions),
      ("摘要", r.abstract),
      ("临床终点详情", r.endpointsDetails)]
      (by decide) h1 h9
      (fun kv hkv => fieldsOf_good r hrec kv (List.mem_append_left
        (("影响因子", r.impactFactor) :: [("疾病类型", r.diseaseType),
      ("研究类型", r.researchType),
      ("样本量", r.sampleSize),
      ("链接", r.url),
      ("研究问题", r.clinicalQuestion),
      ("结论要点", r.keyConclusions),
      ("摘要", r.abstract),
      ("临床终点详情", r.endpointsDetails)]) hkv))
      (fun kv hkv => hiq kv.1 (List.mem_map_of_mem Prod.fst hkv))
  have e9 : extractField (sectString r) "疾病类型" = some r.diseaseType := by
    have hiq : ∀ k2 ∈ (["中文标题", "第一作者", "第一单位", "通讯作者", "期刊", "发表日期", "PMID/DOI", "影响因子"] : List String), keysIndep "疾病类型" k2 := by decide
    exact extractField_build r.titleEn [("中文标题", r.titleCn),
      ("第一作者", r.firstAuthor),
      ("第一单位", r.firstInstitution),
      ("通讯作者", r.correspondingAuthor),
      ("期刊", r.journal),
      ("发表日期", r.publishDate),
      ("PMID/DOI", r.pmidDoi),
      ("影响因子", r.impactFactor)] "疾病类型" r.diseaseType
      [("研究类型", r.researchType),
      ("样本量", r.sampleSize),
      ("链接", r.url),
      ("研究问题", r.clinicalQuestion),
      ("结论要点", r.keyConclusions),
      ("摘要", r.abstract),
      ("临床终点详情", r.endpointsDetails)]
      (by decide) h1 h10
      (fun kv hkv => fieldsOf_good r hrec kv (List.mem_append_left
        (("疾病类型", r.diseaseType) :: [("研究类型", r.researchType),
      ("样本量", r.sampleSize),
      ("链接", r.url),
      ("研究问题", r.clinicalQuestion),
      ("结论要点", r.keyConclusions),
      ("摘要", r.abstract),
      ("临床终点详情", r.endpointsDetails)]) hkv))
      (fun kv hkv => hiq kv.1 (List.mem_map_of_mem Prod.fst hkv))
  have e10 : extractField (sectString r) "研究类型" = some r.researchType := by
    have hiq : ∀ k2 ∈ (["中文标题", "第一作者", "第一单位", "通讯作者", "期刊", "发表日期", "PMID/DOI", "影响因子", "疾病类型"] : List String), keysIndep "研究类型" k2 := by decide
    exact extractField_build r.titleEn [("中文标题", r.titleCn),
      ("第一作者", r.firstAuthor),
      ("第一单位", r.firstInstitution),
      ("通讯作者", r.correspondingAuthor),
      ("期刊", r.journal),
      ("发表日期", r.publishDate),
      ("PMID/DOI", r.pmidDoi),
      ("影响因子", r.impactFactor),
      ("疾病类型", r.diseaseType)] "研究类型" r.researchType
      [("样本量", r.sampleSize),
      ("链接", r.url),
      ("研究问题", r.clinicalQuestion),
      ("结论要点", r.keyConclusions),
      ("摘要", r.abstract),
      ("临床终点详情", r.endpointsDetails)]
      (by decide) h1 h11
      (fun kv hkv => fieldsOf_good r hrec kv (List.mem_append_left
        (("研究类型", r.researchType) :: [("样本量", r.sampleSize),
      ("链接", r.url),
      ("研究问题", r.clinicalQuestion),
      ("结论要点", r.keyConclusions),
      ("摘要", r.abstract),
      ("临床终点详情", r.endpointsDetails)]) hkv))
      (fun kv hkv => hiq kv.1 (List.mem_map_of_mem Prod.fst hkv))
  have e11 : extractField (sectString r) "样本量" = some r.sampleSize := by
    have hiq : ∀ k2 ∈ (["中文标题", "第一作者", "第一单位", "通讯作者", "期刊", "发表日期", "PMID/DOI", "影响因子", "疾病类型", "研究类型"] : List String), keysIndep "样本量" k2 := by decide
    exact extractField_build r.titleEn [("中文标题", r.titleCn),
      ("第一作者", r.firstAuthor),
      ("第一单位", r.firstInstitution),
      ("通讯作者", r.correspondingAuthor),
      ("期刊", r.journal),
      ("发表日期", r.publishDate),
      ("PMID/DOI", r.pmidDoi),
      ("影响因子", r.impactFactor),
      ("疾病类型", r.diseaseType),
      ("研究类型", r.researchType)] "样本量" r.sampleSize
      [("链接", r.url),
      ("研究问题", r.clinicalQuestion),
      ("结论要点", r.keyConclusions),
      ("摘要", r.abstract),
      ("临床终点详情", r.endpointsDetails)]
      (by decide) h1 h12
      (fun kv hkv => fieldsOf_good r hrec kv (List.mem_append_left
        (("样本量", r.sampleSize) :: [("链接", r.url),
      ("研究问题", r.clinicalQuestion),
      ("结论要点", r.keyConclusions),
      ("摘要", r.abstract),
      ("临床终点详情", r.endpointsDetails)]) hkv))
      (fun kv hkv => hiq kv.1 (List.mem_map_of_mem Prod.fst hkv))
  have e12 : extractField (sectString r) "链接" = some r.url := by
    have hiq : ∀ k2 ∈ (["中文标题", "第一作者", "第一单位", "通讯作者", "期刊", "发表日期", "PMID/DOI", "影响因子", "疾病类型", "研究类型", "样本量"] : List String), keysIndep "链接" k2 := by decide
    exact extractField_build r.titleEn [("中文标题", r.titleCn),
      ("第一作者", r.firstAuthor),
      ("第一单位", r.firstInstitution),
      ("通讯作者", r.correspondingAuthor),
      ("期刊", r.journal),
      ("发表日期", r.publishDate),
      ("PMID/DOI", r.pmidDoi),
      ("影响因子", r.impactFactor),
      ("疾病类型", r.diseaseType),
      ("研究类型", r.researchType),
      ("样本量", r.sampleSize)] "链接" r.url
      [("研究问题", r.clinicalQuestion),
      ("结论要点", r.keyConclusions),
      ("摘要", r.abstract),
      ("临床终点详情", r.endpointsDetails)]
      (by decide) h1 h13
      (fun kv hkv => fieldsOf_good r hrec kv (List.mem_append_left
        (("链接", r.url) :: [("研究问题", r.clinicalQuestion),
      ("结论要点", r.keyConclusions),
      ("摘要", r.abstract),
      ("临床终点详情", r.endpointsDetails)]) hkv))
      (fun kv hkv => hiq kv.1 (List.mem_map_of_mem Prod.fst hkv))
  have e13 : extractField (sectString r) "研究问题" = some r.clinicalQuestion := by
    have hiq : ∀ k2 ∈ (["中文标题", "第一作者", "第一单位", "通讯作者", "期刊", "发表日期", "PMID/DOI", "影响因子", "疾病类型", "研究类型", "样本量", "链接"] : List String), keysIndep "研究问题" k2 := by decide
    exact extractField_build r.titleEn [("中文标题", r.titleCn),
      ("第一作者", r.firstAuthor),
      ("第一单位", r.firstInstitution),
      ("通讯作者", r.correspondingAuthor),
      ("期刊", r.journal),
      ("发表日期", r.publishDate),
      ("PMID/DOI", r.pmidDoi),
      ("影响因子", r.impactFactor),
      ("疾病类型", r.diseaseType),
      ("研究类型", r.researchType),
      ("样本量", r.sampleSize),
      ("链接", r.url)] "研究问题" r.clinicalQuestion
      [("结论要点", r.keyConclusions),
      ("摘要", r.abstract),
      ("临床终点详情", r.endpointsDetails)]
      (by decide) h1 h14
      (fun kv hkv => fieldsOf_good r hrec kv (List.mem_append_left
        (("研究问题", r.clinicalQuestion) :: [("结论要点", r.keyConclusions),
      ("摘要", r.abstract),
      ("临床终点详情", r.endpointsDetails)]) hkv))
      (fun kv hkv => hiq kv.1 (List.mem_map_of_mem Prod.fst hkv))
  have e14 : extractField (sectString r) "结论要点" = some r.keyConclusions := by
    have hiq : ∀ k2 ∈ (["中文标题", "第一作者", "第一单位", "通讯作者", "期刊", "发表日期", "PMID/DOI", "影响因子", "疾病类型", "研究类型", "样本量", "链接", "研究问题"] : List String), keysIndep "结论要点" k2 := by decide
    exact extractField_build r.titleEn [("中文标题", r.titleCn),
      ("第一作者", r.firstAuthor),
      ("第一单位", r.firstInstitution),
      ("通讯作者", r.correspondingAuthor),
      ("期刊", r.journal),
      ("发表日期", r.publishDate),
      ("PMID/DOI", r.pmidDoi),
      ("影响因子", r.impactFactor),
      ("疾病类型", r.diseaseType),
      ("研究类型", r.researchType),
      ("样本量", r.sampleSize),
      ("链接", r.url),
      ("研究问题", r.clinicalQuestion)] "结论要点" r.keyConclusions
      [("摘要", r.abstract),
      ("临床终点详情", r.endpointsDetails)]
      (by decide) h1 h15
      (fun kv hkv => fieldsOf_good r hrec kv (List.mem_append_left
        (("结论要点", r.keyConclusions) :: [("摘要", r.abstract),
      ("临床终点详情", r.endpointsDetails)]) hkv))
      (fun kv hkv => hiq kv.1 (List.mem_map_of_mem Prod.fst hkv))
  have e15 : extractField (sectString r) "摘要" = some r.abstract := by
    have hiq : ∀ k2 ∈ (["中文标题", "第一作者", "第一单位", "通讯作者", "期刊", "发表日期", "PMID/DOI", "影响因子", "疾病类型", "研究类型", "样本量", "链接", "研究问题", "结论要点"] : List String), keysIndep "摘要" k2 := by decide
    exact extractField_build r.titleEn [("中文标题", r.titleCn),
      ("第一作者", r.firstAuthor),
      ("第一单位", r.firstInstitution),
      ("通讯作者", r.correspondingAuthor),
      ("期刊", r.journal),
      ("发表日期", r.publishDate),
      ("PMID/DOI", r.pmidDoi),
      ("影响因子", r.impactFactor),
      ("疾病类型", r.diseaseType),
      ("研究类型", r.researchType),
      ("样本量", r.sampleSize),
      ("链接", r.url),
      ("研究问题", r.clinicalQuestion),
      ("结论要点", r.keyConclusions)] "摘要" r.abstract
      [("临床终点详情", r.endpointsDetails)]
      (by decide) h1 h16
      (fun kv hkv => fieldsOf_good r hrec kv (List.mem_append_left
        (("摘要", r.abstract) :: [("临床终点详情", r.endpointsDetails)]) hkv))
      (fun kv hkv => hiq kv.1 (List.mem_map_of_mem Prod.fst hkv))
  have e16 : extractField (sectString r) "临床终点详情" = some r.endpointsDetails := by
    have hiq : ∀ k2 ∈ (["中文标题", "第一作者", "第一单位", "通讯作者", "期刊", "发表日期", "PMID/DOI", "影响因子", "疾病类型", "研究类型", "样本量", "链接", "研究问题", "结论要点", "摘要"] : List String), keysIndep "临床终点详情" k2 := by decide
    exact extractField_build r.titleEn [("中文标题", r.titleCn),
      ("第一作者", r.firstAuthor),
      ("第一单位", r.firstInstitution),
      ("通讯作者", r.correspondingAuthor),
      ("期刊", r.journal),
      ("发表日期", r.publishDate),
      ("PMID/DOI", r.pmidDoi),
      ("影响因子", r.impactFactor),
      ("疾病类型", r.diseaseType),
      ("研究类型", r.researchType),
      ("样本量", r.sampleSize),
      ("链接", r.url),
      ("研究问题", r.clinicalQuestion),
      ("结论要点", r.keyConclusions),
      ("摘要", r.abstract)] "临床终点详情" r.endpointsDetails
      ([] : List (String × String))
      (by decide) h1 h17
      (fun kv hkv => fieldsOf_good r hrec kv (List.mem_append_left
        (("临床终点详情", r.endpointsDetails) :: ([] : List (String × String))) hkv))
      (fun kv hkv => hiq kv.1 (List.mem_map_of_mem Prod.fst hkv))
  refine ⟨h1.2.1, ?_, ?_, ?_, ?_, ?_, ?_, ?_, ?_, ?_, ?_, ?_, ?_, ?_, ?_, ?_, ?_⟩
  · show (extractField (sectString r) "中文标题").getD "暂无中文标题" = r.titleCn
    rw [e1]
    rfl
  · show (extractField (sectString r) "第一作者").getD "Unknown" = r.firstAuthor
    rw [e2]
    rfl
  · show (extractField (sectString r) "第一单位").getD "Unknown Institution" = r.firstInstitution
    rw [e3]
    rfl
  · show (extractField (sectString r) "通讯作者").getD "Unknown" = r.correspondingAuthor
    rw [e4]
    rfl
  · show (extractField (sectString r) "期刊").getD "Unknown Journal" = r.journal
    rw [e5]
    rfl
  · show (extractField (sectString r) "发表日期").getD "Unknown Date" = r.publishDate
    rw [e6]
    rfl
  · show (extractField (sectString r) "PMID/DOI").getD "N/A" = r.pmidDoi
    rw [e7]
    rfl
  · show (extractField (sectString r) "影响因子").getD "N/A" = r.impactFactor
    rw [e8]
    rfl
  · show (extractField (sectString r) "疾病类型").getD "General" = r.diseaseType
    rw [e9]
    rfl
  · show (extractField (sectString r) "研究类型").getD "Literature" = r.researchType
    rw [e10]
    rfl
  · show (extractField (sectString r) "样本量").getD "N/A" = r.sampleSize
    rw [e11]
    rfl
  · show (extractField (sectString r) "链接").getD "" = r.url
    rw [e12]
    rfl
  · show (extractField (sectString r) "研究问题").getD "Not specified" = r.clinicalQuestion
    rw [e13]
    rfl
  · show (extractField (sectString r) "结论要点").getD "No conclusion" = r.keyConclusions
    rw [e14]
    rfl
  · show (extractField (sectString r) "摘要").getD "暂无摘要" = r.abstract
    rw [e15]
    rfl
  · show (extractField (sectString r) "临床终点详情").getD "N/A" = r.endpointsDetails
    rw [e16]
    rfl

theorem parseSections_build (freshId : Nat → String) :
    ∀ (rs : List GrammarRecord) (i : Nat), (∀ r ∈ rs, goodRecord r) →
      List.Forall₂ matchesRec (parseSections freshId i (rs.map sectString)) rs := by
  intro rs
  induction rs with
  | nil =>
    intro i _
    exact List.Forall₂.nil
  | cons r rest ih =>
    intro i h
    have hfh : findHeading (sectString r) = some (⟨(r.titleEn).data⟩ : String) :=
      findHeading_build r.titleEn (fieldsOf r) (h r (List.mem_cons_self _ _)).1
    rw [List.map_cons]
    rw [show parseSections freshId i (sectString r :: rest.map sectString)
        = match findHeading (sectString r) with
          | some t => mkPaperFromSection freshId i (sectString r) t
              :: parseSections freshId (i + 1) (rest.map sectString)
          | none => parseSections freshId (i + 1) (rest.map sectString) from rfl]
    rw [hfh]
    exact List.Forall₂.cons
      (mkPaper_matches freshId i r (h r (List.mem_cons_self _ _)))
      (ih (i + 1) (fun r2 h2 => h r2 (List.mem_cons_of_mem _ h2)))

theorem forall2_mem_right {α β : Type} {R : α → β → Prop} :
    ∀ {l1 : List α} {l2 : List β}, List.Forall₂ R l1 l2 →
      ∀ b ∈ l2, ∃ a ∈ l1, R a b := by
  intro l1 l2 h
  induction h with
  | nil =>
    intro b hb
    exact absurd hb (List.not_mem_nil b)
  | cons hab htl ih =>
    intro b hb
    rcases List.mem_cons.mp hb with rfl | hb2
    · exact ⟨_, List.mem_cons_self _ _, hab⟩
    · obtain ⟨a, ha, hr⟩ := ih b hb2
      exact ⟨a, List.mem_cons_of_mem _ ha, hr⟩

theorem forall2_map_eq {α β γ : Type} {R : α → β → Prop} (f : α → γ) (g : β → γ)
    (hfg : ∀ a b, R a b → f a = g b) :
    ∀ {l1 : List α} {l2 : List β}, List.Forall₂ R l1 l2 → l1.map f = l2.map g := by
  intro l1 l2 h
  induction h with
  | nil => rfl
  | cons hab htl ih =>
    rw [List.map_cons, List.map_cons, hfg _ _ hab, ih]

theorem dedupKey_matches (p : Paper) (r : GrammarRecord) (h : matchesRec p r) :
    dedupKey p = recDedupKey r := by
  rw [dedupKey, recDedupKey, h.2.2.2.2.2.2.2.1, h.1]

theorem dedupGo_nodup :
    ∀ (l : List Paper) (seen : List String),
      (∀ p ∈ l, dedupKey p ∉ seen) → (l.map dedupKey).Nodup →
      dedupGo seen l = l := by
  intro l
  induction l with
  | nil =>
    intro seen _ _
    rfl
  | cons p rest ih =>
    intro seen hseen hnd
    show (if dedupKey p ∈ seen then dedupGo seen rest
      else p :: dedupGo (dedupKey p :: seen) rest) = p :: rest
    rw [if_neg (hseen p (List.mem_cons_self _ _))]
    congr 1
    apply ih
    · intro q hq hcon
      rcases List.mem_cons.mp hcon with heq | hm
      · rw [List.map_cons, List.nodup_cons] at hnd
        exact hnd.1 (heq ▸ List.mem_map_of_mem dedupKey hq)
      · exact hseen q (List.mem_cons_of_mem _ hq) hm
    · rw [List.map_cons, List.nodup_cons] at hnd
      exact hnd.2

theorem dedupPapers_of_nodup (l : List Paper) (h : (l.map dedupKey).Nodup) :
    dedupPapers l = l :=
  dedupGo_nodup l [] (fun p _ hc => absurd hc (List.not_mem_nil _)) h

/-- C4: a Markdown text built exactly from the §6 grammar for
grammar-conformant records with pairwise distinct dedup keys (the keys the
records' PMID fields induce) parses to exactly as many papers as records,
every record's seventeen grammar fields are preserved verbatim in some
parsed paper, and a leading segment whose text carries no recognizable
heading contributes zero papers to the parse regardless of its other
content. -/
theorem C4_grammar_roundtrip (freshId : Nat → String) (rs : List GrammarRecord)
    (hgood : ∀ r ∈ rs, goodRecord r)
    (hkeys : (rs.map recDedupKey).Nodup) :
    (parsePapersFromMarkdown freshId (buildMarkdown rs)).length = rs.length
    ∧ (∀ r ∈ rs,
        ∃ p ∈ parsePapersFromMarkdown freshId (buildMarkdown rs), matchesRec p r)
    ∧ (∀ (s : String), findHeading s = none →
        ∀ (i : Nat) (ss : List String),
          parseSections freshId i (s :: ss) = parseSections freshId (i + 1) ss) := by
  have hsec := sections_build rs hgood
  have hf2 : List.Forall₂ matchesRec (rawPapersOf freshId (buildMarkdown rs)) rs := by
    rw [rawPapersOf, hsec]
    exact parseSections_build freshId rs 0 hgood
  have hmap : (rawPapersOf freshId (buildMarkdown rs)).map dedupKey
      = rs.map recDedupKey :=
    forall2_map_eq dedupKey recDedupKey dedupKey_matches hf2
  have hdk : ((rawPapersOf freshId (buildMarkdown rs)).map dedupKey).Nodup := by
    rw [hmap]
    exact hkeys
  have hded : dedupPapers (rawPapersOf freshId (buildMarkdown rs))
      = rawPapersOf freshId (buildMarkdown rs) := dedupPapers_of_nodup _ hdk
  refine ⟨?_, ?_, ?_⟩
  · show (sortPapers (dedupPapers (rawPapersOf freshId (buildMarkdown rs)))).length
      = rs.length
    rw [hded, (sortPapers_perm _).length_eq]
    exact hf2.length_eq
  · intro r hr
    obtain ⟨p, hp, hm⟩ := forall2_mem_right hf2 r hr
    refine ⟨p, ?_, hm⟩
    show p ∈ sortPapers (dedupPapers (rawPapersOf freshId (buildMarkdown rs)))
    rw [hded]
    exact ((sortPapers_perm _).mem_iff).mpr hp
  · intro s hs i ss
    show (match findHeading s with
      | some t => mkPaperFromSection freshId i s t :: parseSections freshId (i + 1) ss
      | none => parseSections freshId (i + 1) ss) = parseSections freshId (i + 1) ss
    rw [hs]

/-- Witness for C4 at two concrete conformant records with distinct PMIDs:
both hypotheses hold by computation and the round-trip theorem yields two
parsed papers preserving both records. -/
theorem C4_witness :
    (∀ r ∈ [rec4a, rec4b], goodRecord r)
    ∧ (([rec4a, rec4b].map recDedupKey).Nodup)
    ∧ (parsePapersFromMarkdown idGen (buildMarkdown [rec4a, rec4b])).length = 2
    ∧ (∀ r ∈ [rec4a, rec4b],
        ∃ p ∈ parsePapersFromMarkdown idGen (buildMarkdown [rec4a, rec4b]),
          matchesRec p r) := by
  have hg : ∀ r ∈ [rec4a, rec4b], goodRecord r := by decide
  have hk : ([rec4a, rec4b].map recDedupKey).Nodup := by decide
  have hmain := C4_grammar_roundtrip idGen [rec4a, rec4b] hg hk
  exact ⟨hg, hk, hmain.1, hmain.2.1⟩

end NeuroScreen
